import Mathlib

/-!
Verification development for `reqdbcontentcreator/sources.py`.

The Python source is shallowly embedded: pure string manipulation is
translated to structural functions on `List Char` / `String`; the stateful
importer runs (remote creates, the rollback tracker, `panic`) are embedded as
explicit state passing over a `Sess` record; exceptions become `Option` /
an explicit `thrown` result constructor.
-/

set_option autoImplicit false
set_option maxHeartbeats 1000000

namespace Sources

/-! ## String primitives mirroring the Python operations used in sources.py -/

/-- Python `s.zfill(2)`: pad on the left with zeros to width 2; a leading
sign stays in front of the inserted zeros. -/
def zfill2 : List Char → List Char
  | [] => ['0', '0']
  | [c] => if c = '+' ∨ c = '-' then [c, '0'] else ['0', c]
  | c1 :: c2 :: rest => c1 :: c2 :: rest

/-- Python `s.split('.')` (no maxsplit): always returns at least one piece. -/
def splitDot : List Char → List (List Char)
  | [] => [[]]
  | c :: cs =>
    if c = '.' then [] :: splitDot cs
    else
      match splitDot cs with
      | [] => [[c]]
      | p :: ps => (c :: p) :: ps

/-- Python `'.'.join(parts)`. -/
def joinDot : List (List Char) → List Char
  | [] => []
  | [p] => p
  | p :: q :: ps => p ++ '.' :: joinDot (q :: ps)

/-- The zero-padding key normalization used throughout sources.py:
`'.'.join([n.zfill(2) for n in s.split('.')])` (lines 63, 80, 965, 994). -/
def normalizeDotKey (s : String) : String :=
  String.mk (joinDot ((splitDot s.toList).map zfill2))

/-- Python `s.zfill(2)` on `String`. -/
def pyZfill2 (s : String) : String := String.mk (zfill2 s.toList)

/-- Python `s[1:]`. -/
def strDrop1 (s : String) : String := String.mk (s.toList.drop 1)

/-- Split at the first occurrence of `sep`; `none` when `sep` is absent.
This is the search underlying Python `s.split(sep, 1)`. -/
def breakOn (sep : List Char) : List Char → Option (List Char × List Char)
  | [] => if sep = [] then some ([], []) else none
  | c :: cs =>
    if sep.isPrefixOf (c :: cs) then some ([], (c :: cs).drop sep.length)
    else
      match breakOn sep cs with
      | some (a, b) => some (c :: a, b)
      | none => none

/-- Python `s.split(sep, 1)`: `(s, none)` when `sep` does not occur,
otherwise the two pieces around the first occurrence. -/
def splitOnce (sep s : String) : String × Option String :=
  match breakOn sep.toList s.toList with
  | none => (s, none)
  | some (a, b) => (String.mk a, some (String.mk b))

/-- Python `f"{n:02}"`. -/
def fmt02 (n : Nat) : String := if n < 10 then "0" ++ toString n else toString n

/-- `needle` occurs as a contiguous run in `hay`. -/
def listHasRun (needle : List Char) : List Char → Bool
  | [] => needle.isEmpty
  | c :: cs => needle.isPrefixOf (c :: cs) || listHasRun needle cs

/-- Python `needle in hay`. -/
def strContains (hay needle : String) : Bool := listHasRun needle.toList hay.toList

/-- Python `s.startswith(p)`. -/
def strStartsWith (s p : String) : Bool := p.toList.isPrefixOf s.toList

/-- Python `s.endswith(p)`. -/
def strEndsWith (s p : String) : Bool := p.toList.isSuffixOf s.toList

/-- Python `s.replace(pat, rep)` for nonempty `pat` (left-to-right,
non-overlapping). Fuel-indexed so the recursion is structural; the wrapper
passes `s.length` fuel, which is enough since every step consumes at least
one input character. -/
def replaceFuel (pat rep : List Char) : Nat → List Char → List Char
  | _, [] => []
  | 0, s => s
  | n + 1, c :: cs =>
    if pat.isPrefixOf (c :: cs) then rep ++ replaceFuel pat rep n ((c :: cs).drop pat.length)
    else c :: replaceFuel pat rep n cs

/-- Python `s.replace(pat, rep)`. -/
def strReplace (s pat rep : String) : String :=
  String.mk (replaceFuel pat.toList rep.toList s.toList.length s.toList)

/-- Scanner for `re.match(r".*\((B|S|H)\).*", t)` (sources.py line 955):
with both `.*` greedy, group 1 is the letter of the last `(B)`, `(S)` or
`(H)` occurrence; `.` does not match a newline, so only the first line of
`t` is searched (see `bsiTagOf`). -/
def bsiTagScan : List Char → Option Char
  | [] => none
  | c0 :: rest =>
    match bsiTagScan rest with
    | some c2 => some c2
    | none =>
      match c0, rest with
      | '(', c :: ')' :: _ => if c = 'B' ∨ c = 'S' ∨ c = 'H' then some c else none
      | _, _ => none

/-- `tagRe.match(title)` returning group 1 (sources.py lines 955, 995-996). -/
def bsiTagOf (t : String) : Option Char :=
  bsiTagScan (t.toList.takeWhile (fun c => c != '\n'))

/-- Helper for the lazy group 2 of `re.match(r"(.*?) \((.*?)\)", k)`:
content up to the first `')'`, failing on a newline (`.` excludes `'\n'`). -/
def takeUntilRP : List Char → Option (List Char × List Char)
  | [] => none
  | c :: cs =>
    if c = ')' then some ([], cs)
    else if c = '\n' then none
    else
      match takeUntilRP cs with
      | some (a, b) => some (c :: a, b)
      | none => none

/-- `re.match(r"(.*?) \((.*?)\)", k)` (sources.py line 345): both groups
lazy, so group 1 ends at the first `" ("` that is followed by a `')'` on
the same line, and group 2 ends at the first `')'` after it. -/
def c5AreaMatchCh : List Char → Option (List Char × List Char)
  | [] => none
  | c :: cs =>
    if c = '\n' then none
    else
      match c, cs with
      | ' ', '(' :: rest =>
        match takeUntilRP rest with
        | some (g2, _) => some ([], g2)
        | none =>
          match c5AreaMatchCh cs with
          | some (a, b) => some (' ' :: a, b)
          | none => none
      | _, _ =>
        match c5AreaMatchCh cs with
        | some (a, b) => some (c :: a, b)
        | none => none

/-- String wrapper for `c5AreaMatchCh`: `(group 1, group 2)` or `none`. -/
def c5AreaMatch (s : String) : Option (String × String) :=
  match c5AreaMatchCh s.toList with
  | some (a, b) => some (String.mk a, String.mk b)
  | none => none

/-! ## BSI Grundschutz parser (`readBSIBuildingBlocks`, sources.py 947-1004)

The XML navigation (`ElementTree.findall` / `find("./ns:title").text`) and
the markup converter `convertXMLDescriptionToMD` (pypandoc, an external
collaborator per the spec) are abstracted: an input section arrives as its
title text plus its already-converted body text. -/

/-- A leaf `section` element: its title text and its converted body. -/
structure BsiLeafSec where
  titleText : String
  desc : String
  deriving DecidableEq, Repr

/-- A topic `section`: title text, the leaf sections of its
`Gefährdungslage` child, and the leaf sections of its `Anforderungen`
child (both in document order). -/
structure BsiTopicSec where
  titleText : String
  threats : List BsiLeafSec
  requirements : List BsiLeafSec
  deriving DecidableEq, Repr

/-- A building-block chapter: title text and its topic sections. -/
structure BsiChapterSec where
  titleText : String
  topics : List BsiTopicSec
  deriving DecidableEq, Repr

/-- A parsed threat value: `{"title": ..., "description": ...}`. -/
structure BsiThreatEntry where
  title : String
  description : String
  deriving DecidableEq, Repr

/-- A parsed requirement value: `{"title": ..., "tag": ..., "description": ...}`. -/
structure BsiReqEntry where
  title : String
  tag : Option Char
  description : String
  deriving DecidableEq, Repr

/-- A parsed topic: `{"title": ..., "threats": {...}, "requirements": {...}}`.
Python dicts preserve insertion order, so they are embedded as association
lists in insertion order. -/
structure BsiTopicVal where
  title : String
  threats : List (String × BsiThreatEntry)
  requirements : List (String × BsiReqEntry)
  deriving DecidableEq, Repr

/-- A parsed building block: `{"title": ..., "children": {...}}`. -/
structure BsiBlockVal where
  title : String
  children : List (String × BsiTopicVal)
  deriving DecidableEq, Repr

/-- The `buildingBlocks` result dictionary. -/
abbrev BsiBuildingBlocks := List (String × BsiBlockVal)

/-- Python ordered-dict assignment `d[k] = v`: replace in place when the key
exists, append otherwise. -/
def odSet {V : Type} : List (String × V) → String → V → List (String × V)
  | [], k, v => [(k, v)]
  | (k1, v1) :: rest, k, v =>
    if k1 = k then (k1, v) :: rest else (k1, v1) :: odSet rest k v

/-- The threats loop (sources.py 974-983): enumerate the leaf sections of
`Gefährdungslage` in document order, keying them
`f"{topicKey}.G{threatIndex:02}"` with `threatIndex` starting at 1. -/
def bsiThreatsLoop (topicKey : String) : Nat → List BsiLeafSec → List (String × BsiThreatEntry)
  | _, [] => []
  | idx, th :: rest =>
    (topicKey ++ ".G" ++ fmt02 idx, ⟨th.titleText, th.desc⟩) :: bsiThreatsLoop topicKey (idx + 1) rest

/-- The literal known-source correction (sources.py 990-991):
`if titleLine[0] == "OPS.2.3A22": titleLine[0] = "OPS.2.3.A22"`. -/
def bsiFixCode (c : String) : String :=
  if c = "OPS.2.3A22" then "OPS.2.3.A22" else c

/-- Requirement-key derivation from an (already fixed) code
(sources.py 992-994): split at the first `".A"`, zero-pad the suffix to
width 2, rejoin, then zero-pad every dot segment. `none` models the
`IndexError` when the code has no `".A"` marker. -/
def bsiDeriveKey (c : String) : Option String :=
  match splitOnce ".A" c with
  | (_, none) => none
  | (a, some b) => some (normalizeDotKey (a ++ ".A" ++ pyZfill2 b))

/-- Full requirement-key derivation: known-source correction, then
`bsiDeriveKey` (sources.py 990-994). -/
def bsiReqKey (c : String) : Option String :=
  bsiDeriveKey (bsiFixCode c)

/-- Parse one requirement leaf section (sources.py 988-1003): split the
title at the first space into code and title, derive the key, match the
classification tag. `none` models the `IndexError` cases. -/
def bsiParseReqSection (sec : BsiLeafSec) : Option (String × BsiReqEntry) :=
  match splitOnce " " sec.titleText with
  | (_, none) => none
  | (code, some rest) =>
    match bsiReqKey code with
    | none => none
    | some k => some (k, ⟨rest, bsiTagOf rest, sec.desc⟩)

/-- The requirements loop of one topic (sources.py 988-1003). -/
def bsiReqLoop : List BsiLeafSec → List (String × BsiReqEntry) → Option (List (String × BsiReqEntry))
  | [], acc => some acc
  | sec :: rest, acc =>
    match bsiParseReqSection sec with
    | none => none
    | some (k, e) => bsiReqLoop rest (odSet acc k e)

/-- Parse one topic section (sources.py 963-1003): split the title at the
first space, normalize the raw code into the topic key, then fill threats
and requirements. -/
def bsiParseTopic (t : BsiTopicSec) : Option (String × BsiTopicVal) :=
  match splitOnce " " t.titleText with
  | (_, none) => none
  | (rawKey, some title) =>
    let topicKey := normalizeDotKey rawKey
    match bsiReqLoop t.requirements [] with
    | none => none
    | some reqs => some (topicKey, ⟨title, bsiThreatsLoop topicKey 1 t.threats, reqs⟩)

/-- The topics loop of one chapter. -/
def bsiTopicsLoop : List BsiTopicSec → List (String × BsiTopicVal) → Option (List (String × BsiTopicVal))
  | [], acc => some acc
  | t :: rest, acc =>
    match bsiParseTopic t with
    | none => none
    | some (k, v) => bsiTopicsLoop rest (odSet acc k v)

/-- Parse one chapter (sources.py 957-961). -/
def bsiParseChapter (ch : BsiChapterSec) : Option (String × BsiBlockVal) :=
  match splitOnce " " ch.titleText with
  | (_, none) => none
  | (code, some title) =>
    match bsiTopicsLoop ch.topics [] with
    | none => none
    | some children => some (code, ⟨title, children⟩)

/-- The chapter loop of `readBSIBuildingBlocks`. -/
def bsiChaptersLoop : List BsiChapterSec → BsiBuildingBlocks → Option BsiBuildingBlocks
  | [], acc => some acc
  | ch :: rest, acc =>
    match bsiParseChapter ch with
    | none => none
    | some (k, v) => bsiChaptersLoop rest (odSet acc k v)

/-- `readBSIBuildingBlocks` (sources.py 947-1004). -/
def readBSIBuildingBlocks (chs : List BsiChapterSec) : Option BsiBuildingBlocks :=
  bsiChaptersLoop chs []

/-! ## Repository client and ingestion session

The `ReqDB` client (package `reqdb`, an external collaborator per spec §6)
offers `create` per entity kind, returning a fresh identifier, and `delete`
per kind. It is embedded as a repository state holding, per kind, the list
of live `(id, record)` pairs, with one sequential id counter. -/

/-- The six entity kinds of the repository client. -/
inductive EKind where
  | tag
  | topic
  | requirement
  | extraType
  | extraEntry
  | catalogue
  deriving DecidableEq, Repr

/-- `models.Topic`: the parent is an optional topic id. -/
structure TopicRec where
  key : String
  title : String
  description : String
  parent : Option Nat
  deriving DecidableEq, Repr

/-- `models.Requirement`. Every call site in sources.py passes a parent
topic; `tags` keeps the exact list passed, whose elements are tag ids or
Python `None` (see `writeBSIRequirements`). `visible` defaults to true when
the call site does not pass it (spec §3: the visibility flag is false only
when the source marks content withdrawn). -/
structure ReqRec where
  key : String
  title : String
  description : String
  parent : Nat
  visible : Bool
  tags : List (Option Nat)
  deriving DecidableEq, Repr

/-- `models.ExtraType`. -/
structure ExtraTypeRec where
  title : String
  extraType : Nat
  description : String
  deriving DecidableEq, Repr

/-- `models.ExtraEntry`. -/
structure ExtraEntryRec where
  content : String
  extraTypeId : Nat
  requirementId : Nat
  deriving DecidableEq, Repr

/-- `models.Catalogue`: `topics` is the list of root topic ids. -/
structure CatRec where
  title : String
  description : String
  topics : List Nat
  deriving DecidableEq, Repr

/-- The remote repository state: live entities per kind, plus the id counter. -/
structure Repo where
  tags : List (Nat × String)
  topics : List (Nat × TopicRec)
  requirements : List (Nat × ReqRec)
  extraTypes : List (Nat × ExtraTypeRec)
  extraEntries : List (Nat × ExtraEntryRec)
  catalogues : List (Nat × CatRec)
  nextId : Nat
  deriving DecidableEq, Repr

def emptyRepo : Repo := ⟨[], [], [], [], [], [], 0⟩

def Repo.addTag (r : Repo) (t : String) : Nat × Repo :=
  (r.nextId, { r with tags := r.tags ++ [(r.nextId, t)], nextId := r.nextId + 1 })

def Repo.addTopic (r : Repo) (t : TopicRec) : Nat × Repo :=
  (r.nextId, { r with topics := r.topics ++ [(r.nextId, t)], nextId := r.nextId + 1 })

def Repo.addRequirement (r : Repo) (t : ReqRec) : Nat × Repo :=
  (r.nextId, { r with requirements := r.requirements ++ [(r.nextId, t)], nextId := r.nextId + 1 })

def Repo.addExtraType (r : Repo) (t : ExtraTypeRec) : Nat × Repo :=
  (r.nextId, { r with extraTypes := r.extraTypes ++ [(r.nextId, t)], nextId := r.nextId + 1 })

def Repo.addExtraEntry (r : Repo) (t : ExtraEntryRec) : Nat × Repo :=
  (r.nextId, { r with extraEntries := r.extraEntries ++ [(r.nextId, t)], nextId := r.nextId + 1 })

def Repo.addCatalogue (r : Repo) (t : CatRec) : Nat × Repo :=
  (r.nextId, { r with catalogues := r.catalogues ++ [(r.nextId, t)], nextId := r.nextId + 1 })

/-- A kind-directed delete: removes the id from that kind's live list. A
delete of an id that is not live under that kind is a rejected remote call;
the rollback loop logs and skips it (spec §4.2), so it is a no-op here. -/
def Repo.deleteKind (r : Repo) (k : EKind) (i : Nat) : Repo :=
  match k with
  | .tag => { r with tags := r.tags.filter (fun p => p.1 != i) }
  | .topic => { r with topics := r.topics.filter (fun p => p.1 != i) }
  | .requirement => { r with requirements := r.requirements.filter (fun p => p.1 != i) }
  | .extraType => { r with extraTypes := r.extraTypes.filter (fun p => p.1 != i) }
  | .extraEntry => { r with extraEntries := r.extraEntries.filter (fun p => p.1 != i) }
  | .catalogue => { r with catalogues := r.catalogues.filter (fun p => p.1 != i) }

/-- The `Rollback` tracker's five id lists. sources.py references exactly
`Rollback.tags`, `.topics`, `.requirements`, `.extraTypes`, `.catalogues`
(class-level lists of created ids) and `Rollback.rollbackAll`. -/
structure Rollback where
  tags : List Nat
  topics : List Nat
  requirements : List Nat
  extraTypes : List Nat
  catalogues : List Nat
  deriving DecidableEq, Repr

def emptyRollback : Rollback := ⟨[], [], [], [], []⟩

/-- Modelled from the spec: `Rollback.rollbackAll` lives in
`reqdbcontentcreator/rollback.py`, which is not under src/. Spec §4.2/§7:
it issues deletes for every recorded identifier, Requirements first, then
Topics, then Tags and ExtraTypes, then completed Catalogues; every failed
delete is logged and skipped and never halts the remaining compensations. -/
def rollbackAll (rb : Rollback) (r : Repo) : Repo :=
  let r := rb.requirements.foldl (fun acc i => acc.deleteKind .requirement i) r
  let r := rb.topics.foldl (fun acc i => acc.deleteKind .topic i) r
  let r := rb.tags.foldl (fun acc i => acc.deleteKind .tag i) r
  let r := rb.extraTypes.foldl (fun acc i => acc.deleteKind .extraType i) r
  rb.catalogues.foldl (fun acc i => acc.deleteKind .catalogue i) r

/-- One importer run's state: the remote repository, the rollback tracker,
the number of create calls attempted so far, the index of the create call
that raises (`none` for a failure-free run), and an instrumentation log of
every successful create as `(kind, id)` in call order. -/
structure Sess where
  repo : Repo
  rb : Rollback
  calls : Nat
  failAt : Option Nat
  log : List (EKind × Nat)
  deriving DecidableEq, Repr

/-- The state at the start of a run with the given failure schedule. -/
def initSess (failAt : Option Nat) : Sess :=
  ⟨emptyRepo, emptyRollback, 0, failAt, []⟩

/-- Result of embedded code that can raise: either a value with the new
state, or an exception propagating with the state at the raise. -/
inductive CRes (α : Type) where
  | ok (a : α) (s : Sess)
  | thrown (s : Sess)
  deriving DecidableEq, Repr

def CRes.bind {α β : Type} : CRes α → (α → Sess → CRes β) → CRes β
  | .ok a s, f => f a s
  | .thrown s, _ => .thrown s

/-- A remote create call: raises when this call's index is the scheduled
failure (nothing is created then), otherwise creates, logs and returns the
fresh id. -/
def Sess.create (s : Sess) (k : EKind) (add : Repo → Nat × Repo) : CRes Nat :=
  if s.failAt = some s.calls then .thrown { s with calls := s.calls + 1 }
  else
    let (i, r) := add s.repo
    .ok i { s with repo := r, calls := s.calls + 1, log := s.log ++ [(k, i)] }

def Sess.createTag (s : Sess) (name : String) : CRes Nat :=
  s.create .tag (fun r => r.addTag name)

def Sess.createTopic (s : Sess) (t : TopicRec) : CRes Nat :=
  s.create .topic (fun r => r.addTopic t)

def Sess.createRequirement (s : Sess) (t : ReqRec) : CRes Nat :=
  s.create .requirement (fun r => r.addRequirement t)

def Sess.createExtraType (s : Sess) (t : ExtraTypeRec) : CRes Nat :=
  s.create .extraType (fun r => r.addExtraType t)

def Sess.createExtraEntry (s : Sess) (t : ExtraEntryRec) : CRes Nat :=
  s.create .extraEntry (fun r => r.addExtraEntry t)

def Sess.createCatalogue (s : Sess) (t : CatRec) : CRes Nat :=
  s.create .catalogue (fun r => r.addCatalogue t)

/-- `Rollback.tags.append(i)`. -/
def Sess.rbTag (s : Sess) (i : Nat) : Sess :=
  { s with rb := { s.rb with tags := s.rb.tags ++ [i] } }

/-- `Rollback.topics.append(i)`. -/
def Sess.rbTopic (s : Sess) (i : Nat) : Sess :=
  { s with rb := { s.rb with topics := s.rb.topics ++ [i] } }

/-- `Rollback.requirements.append(i)`. -/
def Sess.rbRequirement (s : Sess) (i : Nat) : Sess :=
  { s with rb := { s.rb with requirements := s.rb.requirements ++ [i] } }

/-- `Rollback.extraTypes.append(i)`. -/
def Sess.rbExtraType (s : Sess) (i : Nat) : Sess :=
  { s with rb := { s.rb with extraTypes := s.rb.extraTypes ++ [i] } }

/-- `Rollback.catalogues.append(i)`. -/
def Sess.rbCatalogue (s : Sess) (i : Nat) : Sess :=
  { s with rb := { s.rb with catalogues := s.rb.catalogues ++ [i] } }

/-- `x = client.Tags.add(...); Rollback.tags.append(x["id"])`. -/
def createTagT (name : String) (s : Sess) : CRes Nat :=
  (s.createTag name).bind fun i s => .ok i (s.rbTag i)

/-- `x = client.Topics.add(...); Rollback.topics.append(x["id"])`. -/
def createTopicT (t : TopicRec) (s : Sess) : CRes Nat :=
  (s.createTopic t).bind fun i s => .ok i (s.rbTopic i)

/-- `x = client.Requirements.add(...); Rollback.requirements.append(x["id"])`. -/
def createRequirementT (t : ReqRec) (s : Sess) : CRes Nat :=
  (s.createRequirement t).bind fun i s => .ok i (s.rbRequirement i)

/-- `x = client.ExtraTypes.add(...); Rollback.extraTypes.append(x["id"])`. -/
def createExtraTypeT (t : ExtraTypeRec) (s : Sess) : CRes Nat :=
  (s.createExtraType t).bind fun i s => .ok i (s.rbExtraType i)

/-- `x = client.Catalogues.add(...); Rollback.catalogues.append(x["id"])`. -/
def createCatalogueT (t : CatRec) (s : Sess) : CRes Nat :=
  (s.createCatalogue t).bind fun i s => .ok i (s.rbCatalogue i)

/-- Python `sys.exit(arg)`: the process exit status is 0 when `arg` is
`None` (a bare `sys.exit()`), else the given code. -/
def sysExitStatus : Option Nat → Nat
  | none => 0
  | some n => n

/-- How an importer run ends: a normal return, a `sys.exit(...)` after the
error handler ran (state holds the post-rollback repository), or an
exception raised outside any try block (state untouched). -/
inductive RunOutcome where
  | completed (s : Sess)
  | exited (status : Nat) (s : Sess)
  | fmtError (s : Sess)
  deriving DecidableEq, Repr

/-- `panic(e, client)` (sources.py 1006-1019): logs, runs
`Rollback.rollbackAll(client)`, then calls `sys.exit()` with no argument. -/
def panic (s : Sess) : RunOutcome :=
  .exited (sysExitStatus none) { s with repo := rollbackAll s.rb s.repo }

/-- The session a run ended in, whichever way it ended. -/
def runSess : RunOutcome → Sess
  | .completed s => s
  | .exited _ s => s
  | .fmtError s => s

/-- The exit status when the run called `sys.exit`. -/
def runExitStatus : RunOutcome → Option Nat
  | .exited st _ => some st
  | _ => none

/-- The final session of a run that completed normally. -/
def completedSess : RunOutcome → Option Sess
  | .completed s => some s
  | _ => none

/-- Projections through `Option Sess` used to state run-level theorems. -/
def optLog : Option Sess → List (EKind × Nat)
  | some s => s.log
  | none => []

def optRbTags : Option Sess → List Nat
  | some s => s.rb.tags
  | none => []

def optRbTopics : Option Sess → List Nat
  | some s => s.rb.topics
  | none => []

def optRbReqs : Option Sess → List Nat
  | some s => s.rb.requirements
  | none => []

def optRbETs : Option Sess → List Nat
  | some s => s.rb.extraTypes
  | none => []

/-- All ids recorded anywhere in the rollback tracker. -/
def rbAllIds (rb : Rollback) : List Nat :=
  rb.tags ++ rb.topics ++ rb.requirements ++ rb.extraTypes ++ rb.catalogues

def optRbAll : Option Sess → List Nat
  | some s => rbAllIds s.rb
  | none => []

def optReqs : Option Sess → List (Nat × ReqRec)
  | some s => s.repo.requirements
  | none => []

def optTopics : Option Sess → List (Nat × TopicRec)
  | some s => s.repo.topics
  | none => []

/-! ## The `asvs` importer (sources.py 15-114)

The downloaded JSON document arrives as a typed fixture. -/

/-- One ASVS level-3 item: shortcode, description, the three
`{"Lx": {"Required": bool}}` flags, and the CWE / NIST reference lists. -/
structure AsvsL3 where
  shortcode : String
  description : String
  l1 : Bool
  l2 : Bool
  l3 : Bool
  cwe : List Nat
  nist : List String
  deriving DecidableEq, Repr

/-- One ASVS level-2 item. -/
structure AsvsL2 where
  shortcode : String
  name : String
  items : List AsvsL3
  deriving DecidableEq, Repr

/-- One ASVS level-1 item. -/
structure AsvsL1 where
  shortcode : String
  shortName : String
  name : String
  items : List AsvsL2
  deriving DecidableEq, Repr

/-- The ASVS document root. -/
structure AsvsData where
  name : String
  shortName : String
  description : String
  requirements : List AsvsL1
  deriving DecidableEq, Repr

/-- An `if <list> != []: client.ExtraEntries.add(...)` statement: the
create happens only when the guard holds, and its id is not recorded. -/
def condCreateEE (cond : Prop) [Decidable cond] (e : ExtraEntryRec) (s : Sess) : CRes Unit :=
  if cond then (s.createExtraEntry e).bind fun _ s => .ok () s
  else .ok () s

/-- The inner `itemL3` loop (sources.py 70-104): build the tag list from
the level flags, create the requirement (tracked), then create the CWE
extra entry (stored under the "CVE Ref" extra type, as in the source) and
the NIST extra entry when the reference lists are nonempty — neither extra
entry id is recorded anywhere. -/
def asvsL3Loop (l1t l2t l3t nistId cveId p2 : Nat) (l2Name : String) :
    List AsvsL3 → Sess → CRes Unit
  | [], s => .ok () s
  | it :: rest, s =>
    let t : List (Option Nat) :=
      (if it.l1 then [some l1t] else []) ++ (if it.l2 then [some l2t] else []) ++
        (if it.l3 then [some l3t] else [])
    (createRequirementT
        ⟨"V" ++ normalizeDotKey (strDrop1 it.shortcode), l2Name, it.description, p2,
          !(strContains it.description "[DELETED,"), t⟩ s).bind fun rid s =>
    (condCreateEE (it.cwe ≠ [])
        ⟨String.intercalate ";" (it.cwe.map toString), cveId, rid⟩ s).bind fun _ s =>
    (condCreateEE (it.nist ≠ []) ⟨String.intercalate ";" it.nist, nistId, rid⟩ s).bind fun _ s =>
    asvsL3Loop l1t l2t l3t nistId cveId p2 l2Name rest s

/-- The `itemL2` loop (sources.py 60-104). -/
def asvsL2Loop (l1t l2t l3t nistId cveId p1 : Nat) :
    List AsvsL2 → Sess → CRes Unit
  | [], s => .ok () s
  | it :: rest, s =>
    (createTopicT
        ⟨"V" ++ normalizeDotKey (strDrop1 it.shortcode), it.name, it.name, some p1⟩ s).bind
      fun p2 s =>
    (asvsL3Loop l1t l2t l3t nistId cveId p2 it.name it.items s).bind fun _ s =>
    asvsL2Loop l1t l2t l3t nistId cveId p1 rest s

/-- The `itemL1` loop (sources.py 50-104), accumulating `rootTopics`. -/
def asvsL1Loop (l1t l2t l3t nistId cveId : Nat) :
    List AsvsL1 → List Nat → Sess → CRes (List Nat)
  | [], acc, s => .ok acc s
  | it :: rest, acc, s =>
    (createTopicT ⟨"V" ++ pyZfill2 (strDrop1 it.shortcode), it.shortName, it.name, none⟩ s).bind
      fun p1 s =>
    (asvsL2Loop l1t l2t l3t nistId cveId p1 it.items s).bind fun _ s =>
    asvsL1Loop l1t l2t l3t nistId cveId rest (acc ++ [p1]) s

/-- The first try block of `asvs` (sources.py 29-46): three level tags and
the two extra types, all tracked. -/
def asvsSetup (s : Sess) : CRes (Nat × Nat × Nat × Nat × Nat) :=
  (createTagT "Level 1" s).bind fun l1t s =>
  (createTagT "Level 2" s).bind fun l2t s =>
  (createTagT "Level 3" s).bind fun l3t s =>
  (createExtraTypeT ⟨"NIST Ref", 3, "NIST Reference"⟩ s).bind fun nistId s =>
  (createExtraTypeT ⟨"CVE Ref", 3, "CVE Reference"⟩ s).bind fun cveId s =>
  .ok (l1t, l2t, l3t, nistId, cveId) s

/-- `asvs(client)` after the download (sources.py 15-114): on an exception
in either try block the handler is `panic`; the final catalogue id is not
recorded in the rollback tracker. -/
def asvs (d : AsvsData) (s : Sess) : RunOutcome :=
  match asvsSetup s with
  | .thrown s1 => panic s1
  | .ok (l1t, l2t, l3t, nistId, cveId) s1 =>
    match asvsL1Loop l1t l2t l3t nistId cveId d.requirements [] s1 with
    | .thrown s2 => panic s2
    | .ok rootTopics s2 =>
      match s2.createCatalogue
          ⟨d.name ++ " (" ++ d.shortName ++ ")", d.description, rootTopics⟩ with
      | .thrown s3 => panic s3
      | .ok _ s3 => .completed s3

/-! ## The `nistcsf` importer: upload stage (sources.py 182-226)

The canonical mapping `o` built from the spreadsheet (lines 144-180) is the
input; dicts are association lists in insertion order. -/

/-- A subcategory entry of the canonical mapping. -/
structure NistReqEntry where
  title : String
  description : String
  deriving DecidableEq, Repr

/-- A category of the canonical mapping. -/
structure NistCat where
  title : String
  description : String
  requirements : List (String × NistReqEntry)
  deriving DecidableEq, Repr

/-- A function of the canonical mapping. -/
structure NistFn where
  title : String
  description : String
  children : List (String × NistCat)
  deriving DecidableEq, Repr

abbrev NistMapping := List (String × NistFn)

/-- The `itemL3` loop (sources.py 205-216). The id returned by the
requirement create is appended to `Rollback.topics` — exactly as in the
source (`Rollback.topics.append(requirement["id"])`, line 216). -/
def nistReqLoop (p2 : Nat) : List (String × NistReqEntry) → Sess → CRes Unit
  | [], s => .ok () s
  | (k, it) :: rest, s =>
    match s.createRequirement
        ⟨k, it.title, it.description, p2, !(strContains it.title "[Withdrawn"), []⟩ with
    | .thrown s1 => .thrown s1
    | .ok rid s1 => nistReqLoop p2 rest (s1.rbTopic rid)

/-- The `itemL2` loop (sources.py 195-216). -/
def nistCatLoop (p1 : Nat) : List (String × NistCat) → Sess → CRes Unit
  | [], s => .ok () s
  | (k, it) :: rest, s =>
    (createTopicT ⟨k, it.title, it.description, some p1⟩ s).bind fun p2 s =>
    (nistReqLoop p2 it.requirements s).bind fun _ s =>
    nistCatLoop p1 rest s

/-- The `itemL1` loop (sources.py 185-216), accumulating `rootTopics`. -/
def nistFnLoop : NistMapping → List Nat → Sess → CRes (List Nat)
  | [], acc, s => .ok acc s
  | (k, it) :: rest, acc, s =>
    (createTopicT ⟨k, it.title, it.description, none⟩ s).bind fun p1 s =>
    (nistCatLoop p1 it.children s).bind fun _ s =>
    nistFnLoop rest (acc ++ [p1]) s

def nistCsfCatalogueDescription : String :=
  "The NIST Cybersecurity Framework (CSF) 2.0 provides guidance to industry, government agencies, and other organizations to manage cybersecurity risks. It offers a taxonomy of high-level cybersecurity outcomes that can be used by any organization — regardless of its size, sector, or maturity — to better understand, assess, prioritize, and communicate its cybersecurity efforts. The CSF does not prescribe how outcomes should be achieved. Rather, it links to online resources that provide additional guidance on practices and controls that could be used to achieve those outcomes."

/-- The upload stage of `nistcsf` (sources.py 182-226): the try block walks
the mapping and creates the catalogue (id not recorded); the handler is
`panic`. -/
def nistcsfUpload (m : NistMapping) (s : Sess) : RunOutcome :=
  match nistFnLoop m [] s with
  | .thrown s1 => panic s1
  | .ok roots s1 =>
    match s1.createCatalogue
        ⟨"NIST Cybersecurity Framework (CSF) 2.0", nistCsfCatalogueDescription, roots⟩ with
    | .thrown s2 => panic s2
    | .ok _ s2 => .completed s2

/-! ## The `csaccm` importer (sources.py 545-605) -/

structure CcmControl where
  id : String
  title : String
  specification : String
  deriving DecidableEq, Repr

structure CcmDomain where
  id : String
  title : String
  controls : List CcmControl
  deriving DecidableEq, Repr

structure CcmData where
  name : String
  version : String
  url : String
  domains : List CcmDomain
  deriving DecidableEq, Repr

/-- The zip scan (sources.py 560-563): iterate the name list, keeping the
last entry that ends with `"/CCM/primary-dataset.json"`. -/
def csaccmFindPath (names : List String) : Option String :=
  names.foldl (fun acc n => if strEndsWith n "/CCM/primary-dataset.json" then some n else acc)
    none

/-- The controls loop (sources.py 578-588): requirement ids are tracked in
`Rollback.requirements`. -/
def ccmCtrlLoop (p1 : Nat) : List CcmControl → Sess → CRes Unit
  | [], s => .ok () s
  | c :: rest, s =>
    (createRequirementT ⟨c.id, c.title, c.specification, p1, true, []⟩ s).bind fun _ s =>
    ccmCtrlLoop p1 rest s

/-- The domains loop (sources.py 572-588), accumulating `rootTopics`. -/
def ccmDomLoop : List CcmDomain → List Nat → Sess → CRes (List Nat)
  | [], acc, s => .ok acc s
  | d :: rest, acc, s =>
    (createTopicT ⟨d.id, d.title, "-", none⟩ s).bind fun p1 s =>
    (ccmCtrlLoop p1 d.controls s).bind fun _ s =>
    ccmDomLoop rest (acc ++ [p1]) s

/-- `csaccm(client)` after the download (sources.py 545-605): when no zip
entry matches, `FileNotFoundError` is raised before the try block and
before any create call; the except handler (lines 599-605) is the inlined
body of `panic`. -/
def csaccm (names : List String) (d : CcmData) (s : Sess) : RunOutcome :=
  match csaccmFindPath names with
  | none => .fmtError s
  | some _ =>
    match ccmDomLoop d.domains [] s with
    | .thrown s1 => panic s1
    | .ok roots s1 =>
      match s1.createCatalogue
          ⟨d.name ++ " (" ++ d.version ++ ")",
            d.name ++ ", Version " ++ d.version ++ ". See " ++ d.url, roots⟩ with
      | .thrown s2 => panic s2
      | .ok _ s2 => .completed s2

/-! ## The `bsic5` importer (sources.py 230-423) -/

/-- One spreadsheet row, already extracted by the tabular collaborator. -/
structure C5Row where
  area : String
  id : String
  title : String
  basic : String
  additional : String
  siAbout : String
  siCCC : String
  siFeas : String
  siNotes : String
  deriving DecidableEq, Repr

/-- The bullet / quote character cleanup applied to most columns
(`"•" → "*"`, `"“"`/`"”"` → `"\""`). -/
def c5Clean (s : String) : String :=
  strReplace (strReplace (strReplace s "•" "*") "“" "\"") "”" "\""

/-- The variant used for the Additional Criteria column
(`"•" → "* "`). -/
def c5CleanAdd (s : String) : String :=
  strReplace (strReplace (strReplace s "•" "* ") "“" "\"") "”" "\""

/-- The per-id value stored in `o[area][id]` (sources.py 269-303). -/
structure C5Entry where
  title : String
  basic : String
  additional : String
  siAbout : String
  siCCC : String
  siFeas : String
  siNotes : String
  deriving DecidableEq, Repr

/-- Python `k in d` / `d[k]` on the ordered dict. -/
def odFind {V : Type} (l : List (String × V)) (k : String) : Option V :=
  (l.find? (fun p => p.1 = k)).map Prod.snd

/-- The row loop building `o` (sources.py 265-303). -/
def c5BuildO : List C5Row → List (String × List (String × C5Entry)) →
    List (String × List (String × C5Entry))
  | [], o => o
  | row :: rest, o =>
    let o := if (odFind o row.area).isSome then o else o ++ [(row.area, [])]
    let entry : C5Entry :=
      ⟨row.title, c5Clean row.basic, c5CleanAdd row.additional, c5Clean row.siAbout,
        c5Clean row.siCCC, c5Clean row.siFeas, c5Clean row.siNotes⟩
    let inner := (odFind o row.area).getD []
    c5BuildO rest (odSet o row.area (odSet inner row.id entry))

/-- The five extra types created at the head of the try block
(sources.py 306-341), all tracked. -/
def c5Setup (s : Sess) : CRes (Nat × Nat × Nat × Nat × Nat) :=
  (createExtraTypeT ⟨"Additional Criteria", 1, "-"⟩ s).bind fun ac s =>
  (createExtraTypeT ⟨"Supplementary Information - About the Criteria", 1, "-"⟩ s).bind fun si1 s =>
  (createExtraTypeT ⟨"Supplementary Information - Complementary Customer Criteria", 1, "-"⟩ s).bind
    fun si2 s =>
  (createExtraTypeT
      ⟨"Supplementary Information - Notes on Continuous Auditing - Feasibility", 3, "-"⟩ s).bind
    fun si3 s =>
  (createExtraTypeT ⟨"Supplementary Information - Notes on Continuous Auditing", 1, "-"⟩ s).bind
    fun si4 s =>
  .ok (ac, si1, si2, si3, si4) s

/-- The inner id loop (sources.py 361-412): the requirement id is appended
to `Rollback.topics` (line 371, as in the source), then the five extra
entries are created, none of them recorded. -/
def c5ReqLoop (ac si1 si2 si3 si4 parent : Nat) :
    List (String × C5Entry) → Sess → CRes Unit
  | [], s => .ok () s
  | (ki, i) :: rest, s =>
    match s.createRequirement ⟨ki, i.title, i.basic, parent, true, []⟩ with
    | .thrown s1 => .thrown s1
    | .ok rid s1 =>
      let s1 := s1.rbTopic rid
      (s1.createExtraEntry ⟨i.additional, ac, rid⟩).bind fun _ s =>
      (s.createExtraEntry ⟨i.siAbout, si1, rid⟩).bind fun _ s =>
      (s.createExtraEntry ⟨i.siCCC, si2, rid⟩).bind fun _ s =>
      (s.createExtraEntry ⟨i.siFeas, si3, rid⟩).bind fun _ s =>
      (s.createExtraEntry ⟨i.siNotes, si4, rid⟩).bind fun _ s =>
      c5ReqLoop ac si1 si2 si3 si4 parent rest s

/-- The area loop (sources.py 347-412): `topicRe.match(k)` raising
`AttributeError` when the area does not match is modelled by `thrown`. -/
def c5AreaLoop (ac si1 si2 si3 si4 : Nat) :
    List (String × List (String × C5Entry)) → List Nat → Sess → CRes (List Nat)
  | [], acc, s => .ok acc s
  | (k, v) :: rest, acc, s =>
    match c5AreaMatch k with
    | none => .thrown s
    | some (g1, g2) =>
      (createTopicT ⟨"C5-" ++ g2, g1, "-", none⟩ s).bind fun parent s =>
      (c5ReqLoop ac si1 si2 si3 si4 parent v s).bind fun _ s =>
      c5AreaLoop ac si1 si2 si3 si4 rest (acc ++ [parent]) s

/-- `bsic5(client)` after the download (sources.py 230-423). -/
def bsic5 (rows : List C5Row) (s : Sess) : RunOutcome :=
  let o := c5BuildO rows []
  match c5Setup s with
  | .thrown s1 => panic s1
  | .ok (ac, si1, si2, si3, si4) s1 =>
    match c5AreaLoop ac si1 si2 si3 si4 o [] s1 with
    | .thrown s2 => panic s2
    | .ok roots s2 =>
      match s2.createCatalogue
          ⟨"Cloud Computing Compliance Criteria Catalogue (C5:2020 Criteria)",
            "The C5 (Cloud Computing Compliance Criteria Catalogue) criteria catalogue specifies minimum requirements for secure cloud computing and is primarily intended for professional cloud providers, their auditors and customers.",
            roots⟩ with
      | .thrown s3 => panic s3
      | .ok _ s3 => .completed s3

/-! ## `writeBSIRequirements` (sources.py 876-944) -/

/-- Python dict lookup `tags[c]` for the B/S/H tag map. -/
def charLookup (l : List (Char × Nat)) (c : Char) : Option Nat :=
  (l.find? (fun p => p.1 = c)).map Prod.snd

/-- The requirement loop of one topic (sources.py 913-934). The tags list
passed to the create is always a one-element list: the looked-up tag id, or
Python `None` when the parsed tag is absent; an unknown tag letter is a
`KeyError` (`thrown`), raised while building the call's arguments, before
the create. `visible` is false exactly when the title starts with
`"ENTFALLEN ("`. -/
def bsiWriteReqLoop (tagMap : List (Char × Nat)) (parent : Nat) :
    List (String × BsiReqEntry) → Sess → CRes Unit
  | [], s => .ok () s
  | (k, e) :: rest, s =>
    match
      (match e.tag with
        | none => some [Option.none]
        | some c => (charLookup tagMap c).map (fun i => [some i])) with
    | none => .thrown s
    | some tl =>
      (createRequirementT
          ⟨k, e.title, e.description, parent,
            !(strStartsWith e.title "ENTFALLEN ("), tl⟩ s).bind fun _ s =>
      bsiWriteReqLoop tagMap parent rest s

/-- The topic loop of one building block (sources.py 903-934). -/
def bsiWriteTopicLoop (tagMap : List (Char × Nat)) (blockRoot : Nat) :
    List (String × BsiTopicVal) → Sess → CRes Unit
  | [], s => .ok () s
  | (tk, tv) :: rest, s =>
    (createTopicT ⟨tk, tv.title, "", some blockRoot⟩ s).bind fun pt s =>
    (bsiWriteReqLoop tagMap pt tv.requirements s).bind fun _ s =>
    bsiWriteTopicLoop tagMap blockRoot rest s

/-- The building-block loop (sources.py 891-934), accumulating the roots. -/
def bsiWriteBlockLoop (tagMap : List (Char × Nat)) :
    BsiBuildingBlocks → List Nat → Sess → CRes (List Nat)
  | [], acc, s => .ok acc s
  | (bk, bv) :: rest, acc, s =>
    (createTopicT ⟨bk, bv.title, "", none⟩ s).bind fun root s =>
    (bsiWriteTopicLoop tagMap root bv.children s).bind fun _ s =>
    bsiWriteBlockLoop tagMap rest (acc ++ [root]) s

/-- `writeBSIRequirements(client, buildingBlocks)` (sources.py 876-944):
creates the three classification tags, walks the building blocks, then
creates the catalogue, whose id is recorded in `Rollback.catalogues`. -/
def writeBSIRequirements (bbs : BsiBuildingBlocks) (s : Sess) : CRes Unit :=
  (createTagT "Basis" s).bind fun tb s =>
  (createTagT "Standard" s).bind fun ts s =>
  (createTagT "Erhöht" s).bind fun th s =>
  (bsiWriteBlockLoop [('B', tb), ('S', ts), ('H', th)] bbs [] s).bind fun roots s =>
  (createCatalogueT
      ⟨"BSI Grundschutz Bausteine (2023)",
        "Anforderungsbausteine des BSI Grundschutzes (2023)", roots⟩ s).bind fun _ s =>
  .ok () s

/-- `writeBSIRequirements` run from a clean session without injected
failures, as invoked inside the try block of `bsigrundschutz`. -/
def bsiWriteFinal (bbs : BsiBuildingBlocks) : Option Sess :=
  match writeBSIRequirements bbs (initSess none) with
  | .ok _ s => some s
  | .thrown _ => none

/-- A failure-free `asvs` run from a clean session. -/
def asvsFinal (d : AsvsData) : Option Sess :=
  completedSess (asvs d (initSess none))

/-- A failure-free `nistcsf` upload from a clean session. -/
def nistFinal (m : NistMapping) : Option Sess :=
  completedSess (nistcsfUpload m (initSess none))

/-- A failure-free `bsic5` run from a clean session. -/
def c5Final (rows : List C5Row) : Option Sess :=
  completedSess (bsic5 rows (initSess none))

/-! ## Concrete fixtures used by several theorems -/

/-- A one-requirement ASVS document with a CWE reference. -/
def asvsFixture : AsvsData :=
  { name := "Application Security Verification Standard", shortName := "ASVS",
    description := "d",
    requirements := [
      { shortcode := "V1", shortName := "Arch", name := "Architecture",
        items := [
          { shortcode := "V1.1", name := "SDLC",
            items := [
              { shortcode := "V1.1.1", description := "Verify things.",
                l1 := true, l2 := true, l3 := true, cwe := [1059], nist := [] } ] } ] } ] }

/-- A one-subcategory NIST CSF canonical mapping. -/
def nistFixtureA : NistMapping :=
  [("GV", ⟨"Govern", "d",
    [("GV.OC", ⟨"Context", "d", [("GV.OC-01", ⟨"t", "d"⟩)]⟩)]⟩)]

/-- One BSI building block with a tagged and a superseded requirement. -/
def bsiFixtureW : BsiBuildingBlocks :=
  [("SYS", ⟨"IT-Systeme",
    [("SYS.01", ⟨"Server", [],
      [("SYS.01.01.A01", ⟨"Alles (B)", some 'B', "d"⟩),
       ("SYS.01.01.A02", ⟨"ENTFALLEN (x)", none, "d"⟩)]⟩)]⟩)]

/-- The tabular row of spec §8's worked example. -/
def c5RowA : C5Row := ⟨"A (A1)", "A1.1", "T", "", "", "", "", "", ""⟩

/-- A row whose Area heading does not match the expected
`"<title> (<code>)"` pattern of `topicRe` (sources.py 345). -/
def c5RowBad : C5Row := ⟨"BadArea", "A1.1", "T", "", "", "", "", "", ""⟩

/-! ## String lemmas -/

theorem mk_toList (s : String) : String.mk s.toList = s := rfl

theorem strToList_append (a b : String) : (a ++ b).toList = a.toList ++ b.toList := rfl

theorem toList_inj {a b : String} (h : a.toList = b.toList) : a = b := by
  cases a
  cases b
  exact congrArg String.mk h

theorem space_toList : (" " : String).toList = [' '] := rfl

/-! ## Lemmas on the dot-splitting normalization (for C9) -/

theorem splitDot_ne_nil (s : List Char) : splitDot s ≠ [] := by
  cases s with
  | nil => simp [splitDot]
  | cons c cs =>
    simp only [splitDot]
    split
    · simp
    · split <;> simp

theorem mem_splitDot_dotFree : ∀ (s : List Char), ∀ p ∈ splitDot s, '.' ∉ p := by
  intro s
  induction s with
  | nil =>
    intro p hp
    simp [splitDot] at hp
    simp [hp]
  | cons c cs ih =>
    intro p hp
    simp only [splitDot] at hp
    by_cases hc : c = '.'
    · rw [if_pos hc] at hp
      rcases List.mem_cons.mp hp with h | h
      · simp [h]
      · exact ih p h
    · rw [if_neg hc] at hp
      rcases h' : splitDot cs with - | ⟨q, qs⟩
      · exact absurd h' (splitDot_ne_nil cs)
      · rw [h'] at hp
        rcases List.mem_cons.mp hp with h | h
        · subst h
          intro hmem
          rcases List.mem_cons.mp hmem with h | h
          · exact hc h.symm
          · exact ih q (h' ▸ List.mem_cons_self q qs) h
        · exact ih p (h' ▸ List.mem_cons_of_mem q h)

theorem zfill2_length (p : List Char) : 2 ≤ (zfill2 p).length := by
  match p with
  | [] => simp [zfill2]
  | [c] => simp only [zfill2]; split <;> simp
  | a :: b :: t => simp [zfill2]

theorem zfill2_of_two_le {p : List Char} (h : 2 ≤ p.length) : zfill2 p = p := by
  match p with
  | [] => simp at h
  | [c] => simp at h
  | a :: b :: t => rfl

theorem zfill2_dotFree {p : List Char} (h : '.' ∉ p) : '.' ∉ zfill2 p := by
  match p with
  | [] => simp [zfill2]
  | [c] =>
    simp only [zfill2]
    have hc : c ≠ '.' := by simp at h; exact fun hh => h hh.symm
    split <;> simp <;> exact fun hh => hc hh.symm
  | a :: b :: t => exact h

theorem splitDot_dotFree_eq : ∀ {p : List Char}, '.' ∉ p → splitDot p = [p] := by
  intro p
  induction p with
  | nil => intro h; rfl
  | cons c cs ih =>
    intro h
    have hc : c ≠ '.' := fun hh => h (hh ▸ List.mem_cons_self c cs)
    have hcs : '.' ∉ cs := fun hh => h (List.mem_cons_of_mem c hh)
    simp only [splitDot]
    rw [if_neg (fun hh => hc hh), ih hcs]

theorem splitDot_append {p : List Char} (r : List Char) (h : '.' ∉ p) :
    splitDot (p ++ '.' :: r) = p :: splitDot r := by
  induction p with
  | nil => simp [splitDot]
  | cons c cs ih =>
    have hc : c ≠ '.' := fun hh => h (hh ▸ List.mem_cons_self c cs)
    have hcs : '.' ∉ cs := fun hh => h (List.mem_cons_of_mem c hh)
    simp only [List.cons_append, splitDot]
    rw [if_neg (fun hh => hc hh)]
    simp only [List.append_eq]
    rw [ih hcs]

theorem splitDot_joinDot : ∀ (ps : List (List Char)), (∀ p ∈ ps, '.' ∉ p) → ps ≠ [] →
    splitDot (joinDot ps) = ps := by
  intro ps
  induction ps with
  | nil => intro _ hne; exact absurd rfl hne
  | cons p qs ih =>
    intro h _
    cases qs with
    | nil => exact splitDot_dotFree_eq (h p (List.mem_cons_self p []))
    | cons q rs =>
      show splitDot (p ++ '.' :: joinDot (q :: rs)) = p :: q :: rs
      rw [splitDot_append _ (h p (List.mem_cons_self p _))]
      rw [ih (fun x hx => h x (List.mem_cons_of_mem p hx)) (by simp)]

theorem map_zfill2_of_padded : ∀ (ps : List (List Char)), (∀ p ∈ ps, 2 ≤ p.length) →
    ps.map zfill2 = ps := by
  intro ps
  induction ps with
  | nil => intro _; rfl
  | cons p qs ih =>
    intro h
    simp only [List.map_cons]
    rw [zfill2_of_two_le (h p (List.mem_cons_self p qs)),
      ih (fun x hx => h x (List.mem_cons_of_mem p hx))]

/-- C9: the zero-padding key normalization is idempotent — in particular,
for every key already in normalized form (i.e. in the image of the
normalization), normalizing again returns it unchanged. -/
theorem claim_C9_normalization_idempotent (s : String) :
    normalizeDotKey (normalizeDotKey s) = normalizeDotKey s := by
  unfold normalizeDotKey
  have htl : (String.mk (joinDot ((splitDot s.toList).map zfill2))).toList =
      joinDot ((splitDot s.toList).map zfill2) := rfl
  rw [htl]
  have hdf : ∀ p ∈ (splitDot s.toList).map zfill2, '.' ∉ p := by
    intro p hp
    rcases List.mem_map.mp hp with ⟨q, hq, rfl⟩
    exact zfill2_dotFree (mem_splitDot_dotFree s.toList q hq)
  have hne : (splitDot s.toList).map zfill2 ≠ [] := by
    intro hh
    exact splitDot_ne_nil s.toList (List.map_eq_nil_iff.mp hh)
  rw [splitDot_joinDot _ hdf hne]
  have hpad : ∀ p ∈ (splitDot s.toList).map zfill2, 2 ≤ p.length := by
    intro p hp
    rcases List.mem_map.mp hp with ⟨q, _, rfl⟩
    exact zfill2_length q
  rw [map_zfill2_of_padded _ hpad]

/-! ## C3: positional threat keys -/

theorem bsiThreatsLoop_map_fst (k : String) : ∀ (ts : List BsiLeafSec) (j : Nat),
    (bsiThreatsLoop k j ts).map Prod.fst =
      (List.range' j ts.length).map (fun i => k ++ ".G" ++ fmt02 i) := by
  intro ts
  induction ts with
  | nil => intro j; rfl
  | cons t rest ih =>
    intro j
    simp only [bsiThreatsLoop, List.map_cons, List.length_cons, List.range']
    rw [ih (j + 1)]

theorem bsiThreatsLoop_map_snd (k : String) : ∀ (ts : List BsiLeafSec) (j : Nat),
    (bsiThreatsLoop k j ts).map Prod.snd =
      ts.map (fun t => BsiThreatEntry.mk t.titleText t.desc) := by
  intro ts
  induction ts with
  | nil => intro j; rfl
  | cons t rest ih =>
    intro j
    simp only [bsiThreatsLoop, List.map_cons]
    rw [ih (j + 1)]

/-- C3: for a topic whose threats section has N leaf sections, the parser
assigns exactly the synthetic keys `{topicKey}.G` + zero-padded index, for
indices 1..N in document order, and the values are the leaves' title and
description in the same document order — the key of a leaf depends only on
its position, so reordering the input permutes which title/description each
key maps to. -/
theorem claim_C3_threat_keys_positional (topicKey : String) (ts : List BsiLeafSec) :
    (bsiThreatsLoop topicKey 1 ts).map Prod.fst =
      (List.range' 1 ts.length).map (fun i => topicKey ++ ".G" ++ fmt02 i) ∧
    (bsiThreatsLoop topicKey 1 ts).map Prod.snd =
      ts.map (fun t => BsiThreatEntry.mk t.titleText t.desc) :=
  ⟨bsiThreatsLoop_map_fst topicKey ts 1, bsiThreatsLoop_map_snd topicKey ts 1⟩

/-! ## C4: the known-source code correction -/

/-- C4: the one malformed requirement code `"OPS.2.3A22"` is rewritten to
`"OPS.2.3.A22"` before key derivation (so its key equals the key derived
from the corrected code), and every other code reaches the key derivation
unmodified. -/
theorem claim_C4_known_code_correction :
    bsiReqKey "OPS.2.3A22" = bsiDeriveKey "OPS.2.3.A22" ∧
    ∀ c : String, c ≠ "OPS.2.3A22" → bsiReqKey c = bsiDeriveKey c := by
  constructor
  · rfl
  · intro c h
    unfold bsiReqKey bsiFixCode
    rw [if_neg h]

theorem claim_C4_witness :
    ("SYS.1.1.A1" : String) ≠ "OPS.2.3A22" ∧
      bsiReqKey "SYS.1.1.A1" = bsiDeriveKey "SYS.1.1.A1" :=
  ⟨by decide, claim_C4_known_code_correction.2 "SYS.1.1.A1" (by decide)⟩

/-! ## C5: tag extraction keeps the title unstripped -/

theorem breakOn_some (sep : List Char) : ∀ (s a b : List Char),
    breakOn sep s = some (a, b) → s = a ++ sep ++ b := by
  intro s
  induction s with
  | nil =>
    intro a b h
    simp only [breakOn] at h
    split at h
    · obtain ⟨rfl, rfl⟩ := Prod.mk.injEq .. ▸ Option.some.inj h
      simp_all
    · exact absurd h (by simp)
  | cons c cs ih =>
    intro a b h
    simp only [breakOn] at h
    split at h
    · next hpre =>
      obtain ⟨rfl, rfl⟩ := Prod.mk.injEq .. ▸ Option.some.inj h
      rcases (List.isPrefixOf_iff_prefix.mp hpre) with ⟨t, ht⟩
      have hdrop : (c :: cs).drop sep.length = t := by
        rw [← ht, List.drop_left]
      rw [hdrop, List.nil_append, ← ht]
    · next hpre =>
      rcases h' : breakOn sep cs with - | ⟨a0, b0⟩
      · rw [h'] at h; exact absurd h (by simp)
      · rw [h'] at h
        obtain ⟨rfl, rfl⟩ := Prod.mk.injEq .. ▸ Option.some.inj h
        have := ih a0 b0 h'
        simp [this]

theorem splitOnce_some {sep s a b : String} (h : splitOnce sep s = (a, some b)) :
    s = a ++ sep ++ b := by
  unfold splitOnce at h
  rcases h' : breakOn sep.toList s.toList with - | ⟨x, y⟩
  · rw [h'] at h
    simp at h
  · rw [h'] at h
    obtain ⟨rfl, hb⟩ := Prod.mk.injEq .. ▸ h
    obtain rfl := Option.some.inj hb
    apply toList_inj
    rw [breakOn_some sep.toList s.toList x y h']
    rfl

theorem breakOn_space (b : List Char) : ∀ (a : List Char), ' ' ∉ a →
    breakOn [' '] (a ++ ' ' :: b) = some (a, b) := by
  intro a
  induction a with
  | nil =>
    intro _
    simp [breakOn, List.isPrefixOf]
  | cons c cs ih =>
    intro h
    have hc : c ≠ ' ' := fun hh => h (hh ▸ List.mem_cons_self c cs)
    have hcs : ' ' ∉ cs := fun hh => h (List.mem_cons_of_mem c hh)
    simp only [List.cons_append, breakOn]
    rw [if_neg (by simp [List.isPrefixOf]; intro hh; exact absurd hh.symm hc)]
    simp only [List.append_eq]
    rw [ih hcs]

/-- C5 counterexample: on the requirement heading
`"SYS.1.1.A1 Alles (B)"` the parser records the tag `B` but stores the
title `"Alles (B)"` with the parenthetical still present — the
parenthetical is not stripped from the stored title. -/
theorem claim_C5_counterexample :
    bsiParseReqSection ⟨"SYS.1.1.A1 Alles (B)", "d"⟩ =
      some ("SYS.01.01.A01", ⟨"Alles (B)", some 'B', "d"⟩) ∧
    ("Alles (B)" : String) ≠ "Alles" := by
  constructor
  · decide
  · decide

/-- C5 (amended): when a requirement heading parses, the recorded tag is
exactly the regex extraction from the stored title (the last `(B)`, `(S)`
or `(H)` on the first line, `none` when there is no match — no error), and
the stored title is the heading's text after the code, kept verbatim (the
parenthetical is not stripped); moreover parse success does not depend on
the tag at all: for a space-free code it is decided by the key derivation
alone. -/
theorem claim_C5_amended :
    (∀ (sec : BsiLeafSec) (k : String) (e : BsiReqEntry),
        bsiParseReqSection sec = some (k, e) →
        e.tag = bsiTagOf e.title ∧
        sec.titleText = (splitOnce " " sec.titleText).1 ++ " " ++ e.title ∧
        e.description = sec.desc) ∧
    (∀ (code rest desc : String), ' ' ∉ code.toList →
        (bsiParseReqSection ⟨code ++ " " ++ rest, desc⟩).isSome = (bsiReqKey code).isSome) := by
  constructor
  · intro sec k e h
    unfold bsiParseReqSection at h
    split at h
    · exact absurd h (by simp)
    · rename_i code rest heq
      split at h
      · exact absurd h (by simp)
      · rename_i k0 hk
        obtain ⟨rfl, rfl⟩ := Prod.mk.injEq .. ▸ Option.some.inj h
        refine ⟨rfl, ?_, rfl⟩
        rw [heq]
        exact splitOnce_some heq
  · intro code rest desc hcode
    have hlist : (code ++ " " ++ rest).toList = code.toList ++ ' ' :: rest.toList := by
      rw [strToList_append, strToList_append, space_toList, List.append_assoc,
        List.singleton_append]
    have hsp : splitOnce " " (code ++ " " ++ rest) = (code, some rest) := by
      unfold splitOnce
      rw [space_toList, hlist, breakOn_space _ _ hcode]
      show (String.mk code.toList, some (String.mk rest.toList)) = (code, some rest)
      rw [mk_toList, mk_toList]
    rcases hk : bsiReqKey code with - | k0 <;> simp [bsiParseReqSection, hsp, hk]

theorem claim_C5_amended_witness :
    ((⟨"Alles (B)", some 'B', "d"⟩ : BsiReqEntry).tag =
        bsiTagOf (⟨"Alles (B)", some 'B', "d"⟩ : BsiReqEntry).title) ∧
    (bsiParseReqSection ⟨"X.A1 t", "d"⟩).isSome = (bsiReqKey "X.A1").isSome :=
  ⟨(claim_C5_amended.1 ⟨"SYS.1.1.A1 Alles (B)", "d"⟩ "SYS.01.01.A01"
      ⟨"Alles (B)", some 'B', "d"⟩ (by decide)).1,
   claim_C5_amended.2 "X.A1" "t" "d" (by decide)⟩

/-! ## C7: format error before any create -/

theorem foldl_pathScan_acc : ∀ (names : List String) (acc : Option String),
    (∀ n ∈ names, strEndsWith n "/CCM/primary-dataset.json" = false) →
    names.foldl
      (fun acc n => if strEndsWith n "/CCM/primary-dataset.json" then some n else acc) acc =
      acc := by
  intro names
  induction names with
  | nil => intro acc _; rfl
  | cons n rest ih =>
    intro acc h
    simp only [List.foldl_cons]
    rw [if_neg (by rw [h n (List.mem_cons_self n rest)]; simp)]
    exact ih acc (fun x hx => h x (List.mem_cons_of_mem n hx))

/-- C7 counterexample: in the `bsic5` importer the expected-format error
for an Area heading that does not match `topicRe` (sources.py 345-352, an
"expected pattern absent" drift in the spec's taxonomy) is raised only
during the upload walk: five ExtraType creates have already been issued and
recorded when it fires, and the handler then performs their compensating
deletes (the post-rollback repository no longer holds them) — refuting
"raised before any remote create call has been issued, so the run aborts
with no compensating deletes performed" as a statement about every
importer. -/
theorem claim_C7_counterexample :
    (runSess (bsic5 [c5RowBad] (initSess none))).log =
      [(EKind.extraType, 0), (EKind.extraType, 1), (EKind.extraType, 2),
       (EKind.extraType, 3), (EKind.extraType, 4)] ∧
    (runSess (bsic5 [c5RowBad] (initSess none))).rb.extraTypes = [0, 1, 2, 3, 4] ∧
    runExitStatus (bsic5 [c5RowBad] (initSess none)) = some 0 ∧
    (runSess (bsic5 [c5RowBad] (initSess none))).repo.extraTypes = [] := by
  refine ⟨by decide, by decide, by decide, by decide⟩

/-- C7 (amended): an expected-format error detected before the upload
stage is raised before any remote create call, so the run aborts with no
compensating deletes: when no entry of the downloaded zip ends in
`"/CCM/primary-dataset.json"`, the `csaccm` importer raises
`FileNotFoundError` before its try block and the session (repository,
rollback lists, call counter) is left exactly as it was. But not every
expected-format error precedes creates: in `bsic5` the Area-pattern
mismatch fires only during the upload walk, after the five ExtraType
creates (call counter 5), and the run ends through the rollback handler
with the created ExtraTypes compensated away. -/
theorem claim_C7_amended :
    (∀ (names : List String) (d : CcmData) (s : Sess),
        (∀ n ∈ names, strEndsWith n "/CCM/primary-dataset.json" = false) →
        csaccm names d s = RunOutcome.fmtError s) ∧
    (runSess (bsic5 [c5RowBad] (initSess none))).calls = 5 ∧
    (runSess (bsic5 [c5RowBad] (initSess none))).rb.extraTypes = [0, 1, 2, 3, 4] ∧
    runExitStatus (bsic5 [c5RowBad] (initSess none)) = some 0 ∧
    (runSess (bsic5 [c5RowBad] (initSess none))).repo.extraTypes = [] := by
  refine ⟨?_, by decide, by decide, by decide, by decide⟩
  intro names d s h
  unfold csaccm csaccmFindPath
  rw [foldl_pathScan_acc names none h]

theorem claim_C7_amended_witness :
    csaccm ["bundle/README.md"] (CcmData.mk "CCM" "4" "url" []) (initSess none) =
      RunOutcome.fmtError (initSess none) :=
  claim_C7_amended.1 ["bundle/README.md"] (CcmData.mk "CCM" "4" "url" [])
    (initSess none) (by decide)

/-! ## C8: the tabular worked example -/

/-- C8 counterexample: on the row `{Area: "A (A1)", ID: "A1.1", Title: "T"}`
the single created topic has key `"C5-A1"`, not `"A1"` as the claim states. -/
theorem claim_C8_counterexample :
    optTopics (c5Final [c5RowA]) = [(5, ⟨"C5-A1", "A", "-", none⟩)] ∧
    ("C5-A1" : String) ≠ "A1" := by
  constructor
  · decide
  · decide

/-- C8 (amended): the row `{Area: "A (A1)", ID: "A1.1", Title: "T"}`
produces exactly one topic, keyed `"C5-A1"` (the area code prefixed with
`"C5-"`) and titled `"A"`, and exactly one requirement, keyed `"A1.1"`,
titled `"T"`, whose parent is that topic. -/
theorem claim_C8_amended :
    optTopics (c5Final [c5RowA]) = [(5, ⟨"C5-A1", "A", "-", none⟩)] ∧
    optReqs (c5Final [c5RowA]) = [(6, ⟨"A1.1", "T", "", 5, true, []⟩)] := by
  constructor
  · decide
  · decide

/-! ## C1: behavior of the error handler at a failing run -/

/-- C1: concrete behavior at the failing inputs. In the `asvs` run whose
catalogue create (the 10th call) raises after an ExtraEntry was created,
the error handler exits with status 0 (a bare `sys.exit()`), and the
post-rollback repository still contains the ExtraEntry (pre-run count 0,
post-rollback count 1). In the `nistcsf` run whose catalogue create raises
after a requirement was created, the requirement survives the rollback
because its id was appended to `Rollback.topics` and the compensating
delete is issued against the wrong kind. -/
theorem claim_C1_rollback_gap_and_zero_exit :
    runExitStatus (asvs asvsFixture (initSess (some 9))) = some 0 ∧
    (runSess (asvs asvsFixture (initSess (some 9)))).repo.extraEntries.length = 1 ∧
    (initSess (some 9)).repo.extraEntries.length = 0 ∧
    runExitStatus (nistcsfUpload nistFixtureA (initSess (some 3))) = some 0 ∧
    (runSess (nistcsfUpload nistFixtureA (initSess (some 3)))).repo.requirements.length = 1 ∧
    (initSess (some 3)).repo.requirements.length = 0 := by
  refine ⟨by decide, by decide, by decide, by decide, by decide, by decide⟩

/-! ## C2: what the session records, per kind -/

/-- C2 counterexample: in a completed `asvs` run the ExtraEntry created
with id 8 appears in the create log, but its id is recorded in none of the
session's per-kind lists. -/
theorem claim_C2_counterexample :
    (EKind.extraEntry, 8) ∈ optLog (asvsFinal asvsFixture) ∧
    8 ∉ optRbAll (asvsFinal asvsFixture) := by
  constructor
  · decide
  · decide

/-! ## Step equations for the session operations -/

theorem createTagT_ok {name : String} {s s' : Sess} {i : Nat}
    (h : createTagT name s = .ok i s') :
    i = s.repo.nextId ∧
    s' = { s with
           repo := { s.repo with
               tags := s.repo.tags ++ [(s.repo.nextId, name)]
               nextId := s.repo.nextId + 1 }
           rb := { s.rb with tags := s.rb.tags ++ [s.repo.nextId] }
           calls := s.calls + 1
           log := s.log ++ [(EKind.tag, s.repo.nextId)] } := by
  unfold createTagT at h
  simp only [Sess.createTag, Sess.create] at h
  split at h
  · simp only [CRes.bind] at h
    exact absurd h (by simp)
  · simp only [Repo.addTag, CRes.bind, Sess.rbTag] at h
    injection h with h1 h2
    subst h1
    subst h2
    exact ⟨rfl, rfl⟩

theorem createTopicT_ok {t : TopicRec} {s s' : Sess} {i : Nat}
    (h : createTopicT t s = .ok i s') :
    i = s.repo.nextId ∧
    s' = { s with
           repo := { s.repo with
               topics := s.repo.topics ++ [(s.repo.nextId, t)]
               nextId := s.repo.nextId + 1 }
           rb := { s.rb with topics := s.rb.topics ++ [s.repo.nextId] }
           calls := s.calls + 1
           log := s.log ++ [(EKind.topic, s.repo.nextId)] } := by
  unfold createTopicT at h
  simp only [Sess.createTopic, Sess.create] at h
  split at h
  · simp only [CRes.bind] at h
    exact absurd h (by simp)
  · simp only [Repo.addTopic, CRes.bind, Sess.rbTopic] at h
    injection h with h1 h2
    subst h1
    subst h2
    exact ⟨rfl, rfl⟩

theorem createRequirementT_ok {t : ReqRec} {s s' : Sess} {i : Nat}
    (h : createRequirementT t s = .ok i s') :
    i = s.repo.nextId ∧
    s' = { s with
           repo := { s.repo with
               requirements := s.repo.requirements ++ [(s.repo.nextId, t)]
               nextId := s.repo.nextId + 1 }
           rb := { s.rb with requirements := s.rb.requirements ++ [s.repo.nextId] }
           calls := s.calls + 1
           log := s.log ++ [(EKind.requirement, s.repo.nextId)] } := by
  unfold createRequirementT at h
  simp only [Sess.createRequirement, Sess.create] at h
  split at h
  · simp only [CRes.bind] at h
    exact absurd h (by simp)
  · simp only [Repo.addRequirement, CRes.bind, Sess.rbRequirement] at h
    injection h with h1 h2
    subst h1
    subst h2
    exact ⟨rfl, rfl⟩

theorem createExtraTypeT_ok {t : ExtraTypeRec} {s s' : Sess} {i : Nat}
    (h : createExtraTypeT t s = .ok i s') :
    i = s.repo.nextId ∧
    s' = { s with
           repo := { s.repo with
               extraTypes := s.repo.extraTypes ++ [(s.repo.nextId, t)]
               nextId := s.repo.nextId + 1 }
           rb := { s.rb with extraTypes := s.rb.extraTypes ++ [s.repo.nextId] }
           calls := s.calls + 1
           log := s.log ++ [(EKind.extraType, s.repo.nextId)] } := by
  unfold createExtraTypeT at h
  simp only [Sess.createExtraType, Sess.create] at h
  split at h
  · simp only [CRes.bind] at h
    exact absurd h (by simp)
  · simp only [Repo.addExtraType, CRes.bind, Sess.rbExtraType] at h
    injection h with h1 h2
    subst h1
    subst h2
    exact ⟨rfl, rfl⟩

theorem createCatalogueT_ok {t : CatRec} {s s' : Sess} {i : Nat}
    (h : createCatalogueT t s = .ok i s') :
    i = s.repo.nextId ∧
    s' = { s with
           repo := { s.repo with
               catalogues := s.repo.catalogues ++ [(s.repo.nextId, t)]
               nextId := s.repo.nextId + 1 }
           rb := { s.rb with catalogues := s.rb.catalogues ++ [s.repo.nextId] }
           calls := s.calls + 1
           log := s.log ++ [(EKind.catalogue, s.repo.nextId)] } := by
  unfold createCatalogueT at h
  simp only [Sess.createCatalogue, Sess.create] at h
  split at h
  · simp only [CRes.bind] at h
    exact absurd h (by simp)
  · simp only [Repo.addCatalogue, CRes.bind, Sess.rbCatalogue] at h
    injection h with h1 h2
    subst h1
    subst h2
    exact ⟨rfl, rfl⟩

theorem createRequirement_raw_ok {t : ReqRec} {s s' : Sess} {i : Nat}
    (h : s.createRequirement t = .ok i s') :
    i = s.repo.nextId ∧
    s' = { s with
           repo := { s.repo with
               requirements := s.repo.requirements ++ [(s.repo.nextId, t)]
               nextId := s.repo.nextId + 1 }
           calls := s.calls + 1
           log := s.log ++ [(EKind.requirement, s.repo.nextId)] } := by
  simp only [Sess.createRequirement, Sess.create] at h
  split at h
  · exact absurd h (by simp)
  · simp only [Repo.addRequirement] at h
    injection h with h1 h2
    subst h1
    subst h2
    exact ⟨rfl, rfl⟩

theorem createExtraEntry_raw_ok {t : ExtraEntryRec} {s s' : Sess} {i : Nat}
    (h : s.createExtraEntry t = .ok i s') :
    i = s.repo.nextId ∧
    s' = { s with
           repo := { s.repo with
               extraEntries := s.repo.extraEntries ++ [(s.repo.nextId, t)]
               nextId := s.repo.nextId + 1 }
           calls := s.calls + 1
           log := s.log ++ [(EKind.extraEntry, s.repo.nextId)] } := by
  simp only [Sess.createExtraEntry, Sess.create] at h
  split at h
  · exact absurd h (by simp)
  · simp only [Repo.addExtraEntry] at h
    injection h with h1 h2
    subst h1
    subst h2
    exact ⟨rfl, rfl⟩

theorem createCatalogue_raw_ok {t : CatRec} {s s' : Sess} {i : Nat}
    (h : s.createCatalogue t = .ok i s') :
    i = s.repo.nextId ∧
    s' = { s with
           repo := { s.repo with
               catalogues := s.repo.catalogues ++ [(s.repo.nextId, t)]
               nextId := s.repo.nextId + 1 }
           calls := s.calls + 1
           log := s.log ++ [(EKind.catalogue, s.repo.nextId)] } := by
  simp only [Sess.createCatalogue, Sess.create] at h
  split at h
  · exact absurd h (by simp)
  · simp only [Repo.addCatalogue] at h
    injection h with h1 h2
    subst h1
    subst h2
    exact ⟨rfl, rfl⟩

/-! ## The per-kind recording invariant of the `asvs` importer (C2) -/

def logIds (s : Sess) : List Nat := s.log.map Prod.snd

/-- In a list of `(kind, id)` pairs with pairwise distinct ids, the kind is
a function of the id. -/
theorem snd_nodup_inj {l : List (EKind × Nat)} (h : (l.map Prod.snd).Nodup)
    {a b : EKind} {i : Nat} (ha : (a, i) ∈ l) (hb : (b, i) ∈ l) : a = b := by
  induction l with
  | nil => simp at ha
  | cons p rest ih =>
    simp only [List.map_cons, List.nodup_cons] at h
    rcases List.mem_cons.mp ha with h1 | h1 <;> rcases List.mem_cons.mp hb with h2 | h2
    · exact congrArg Prod.fst (h1.trans h2.symm)
    · rw [← h1] at h
      exact absurd (List.mem_map_of_mem Prod.snd h2) h.1
    · rw [← h2] at h
      exact absurd (List.mem_map_of_mem Prod.snd h1) h.1
    · exact ih h.2 h1 h2

/-- The state invariant the `asvs` importer maintains: create-log ids are
fresh and pairwise distinct; every id in a rollback list was logged with
that list's kind (soundness); every logged Tag/Topic/Requirement/ExtraType
id is in that kind's rollback list (completeness); and `asvs` never records
a catalogue id. -/
structure AsvsInv (s : Sess) : Prop where
  ltIds : ∀ p ∈ s.log, p.2 < s.repo.nextId
  nodup : (logIds s).Nodup
  sTags : ∀ i ∈ s.rb.tags, (EKind.tag, i) ∈ s.log
  sTopics : ∀ i ∈ s.rb.topics, (EKind.topic, i) ∈ s.log
  sReqs : ∀ i ∈ s.rb.requirements, (EKind.requirement, i) ∈ s.log
  sETs : ∀ i ∈ s.rb.extraTypes, (EKind.extraType, i) ∈ s.log
  sCats : s.rb.catalogues = []
  cTags : ∀ i, (EKind.tag, i) ∈ s.log → i ∈ s.rb.tags
  cTopics : ∀ i, (EKind.topic, i) ∈ s.log → i ∈ s.rb.topics
  cReqs : ∀ i, (EKind.requirement, i) ∈ s.log → i ∈ s.rb.requirements
  cETs : ∀ i, (EKind.extraType, i) ∈ s.log → i ∈ s.rb.extraTypes

theorem AsvsInv.init : AsvsInv (initSess none) := by
  constructor <;> simp [initSess, emptyRollback, emptyRepo, logIds]

/-- One create step preserves the invariant, provided the new id is
recorded in exactly the list matching its kind (and in no list for an
ExtraEntry or Catalogue create). -/
theorem AsvsInv.step {s s' : Sess} {k : EKind} (inv : AsvsInv s)
    (hlog : s'.log = s.log ++ [(k, s.repo.nextId)])
    (hnext : s.repo.nextId < s'.repo.nextId)
    (htags : s'.rb.tags = s.rb.tags ++ (if k = EKind.tag then [s.repo.nextId] else []))
    (htopics : s'.rb.topics = s.rb.topics ++ (if k = EKind.topic then [s.repo.nextId] else []))
    (hreqs : s'.rb.requirements =
      s.rb.requirements ++ (if k = EKind.requirement then [s.repo.nextId] else []))
    (hets : s'.rb.extraTypes =
      s.rb.extraTypes ++ (if k = EKind.extraType then [s.repo.nextId] else []))
    (hcats : s'.rb.catalogues = s.rb.catalogues) :
    AsvsInv s' := by
  have hfresh : ∀ j ∈ logIds s, j < s.repo.nextId := by
    intro j hj
    rcases List.mem_map.mp hj with ⟨p, hp, rfl⟩
    exact inv.ltIds p hp
  refine ⟨?_, ?_, ?_, ?_, ?_, ?_, ?_, ?_, ?_, ?_, ?_⟩
  · intro p hp
    rw [hlog] at hp
    rcases List.mem_append.mp hp with h1 | h1
    · exact lt_trans (inv.ltIds p h1) hnext
    · simp at h1
      subst h1
      exact hnext
  · show (s'.log.map Prod.snd).Nodup
    rw [hlog, List.map_append]
    rw [List.nodup_append]
    refine ⟨inv.nodup, by simp, ?_⟩
    intro j hj hj'
    simp at hj'
    exact absurd (hj' ▸ hfresh j hj) (lt_irrefl _)
  · intro i hi
    rw [htags] at hi
    rw [hlog]
    rcases List.mem_append.mp hi with h1 | h1
    · exact List.mem_append_left _ (inv.sTags i h1)
    · by_cases hk : k = EKind.tag
      · rw [if_pos hk] at h1
        simp at h1
        subst hk
        subst h1
        exact List.mem_append_right _ (by simp)
      · rw [if_neg hk] at h1
        simp at h1
  · intro i hi
    rw [htopics] at hi
    rw [hlog]
    rcases List.mem_append.mp hi with h1 | h1
    · exact List.mem_append_left _ (inv.sTopics i h1)
    · by_cases hk : k = EKind.topic
      · rw [if_pos hk] at h1
        simp at h1
        subst hk
        subst h1
        exact List.mem_append_right _ (by simp)
      · rw [if_neg hk] at h1
        simp at h1
  · intro i hi
    rw [hreqs] at hi
    rw [hlog]
    rcases List.mem_append.mp hi with h1 | h1
    · exact List.mem_append_left _ (inv.sReqs i h1)
    · by_cases hk : k = EKind.requirement
      · rw [if_pos hk] at h1
        simp at h1
        subst hk
        subst h1
        exact List.mem_append_right _ (by simp)
      · rw [if_neg hk] at h1
        simp at h1
  · intro i hi
    rw [hets] at hi
    rw [hlog]
    rcases List.mem_append.mp hi with h1 | h1
    · exact List.mem_append_left _ (inv.sETs i h1)
    · by_cases hk : k = EKind.extraType
      · rw [if_pos hk] at h1
        simp at h1
        subst hk
        subst h1
        exact List.mem_append_right _ (by simp)
      · rw [if_neg hk] at h1
        simp at h1
  · rw [hcats]
    exact inv.sCats
  · intro i hi
    rw [hlog] at hi
    rw [htags]
    rcases List.mem_append.mp hi with h1 | h1
    · exact List.mem_append_left _ (inv.cTags i h1)
    · simp at h1
      rw [if_pos h1.1.symm, h1.2]
      exact List.mem_append_right _ (by simp)
  · intro i hi
    rw [hlog] at hi
    rw [htopics]
    rcases List.mem_append.mp hi with h1 | h1
    · exact List.mem_append_left _ (inv.cTopics i h1)
    · simp at h1
      rw [if_pos h1.1.symm, h1.2]
      exact List.mem_append_right _ (by simp)
  · intro i hi
    rw [hlog] at hi
    rw [hreqs]
    rcases List.mem_append.mp hi with h1 | h1
    · exact List.mem_append_left _ (inv.cReqs i h1)
    · simp at h1
      rw [if_pos h1.1.symm, h1.2]
      exact List.mem_append_right _ (by simp)
  · intro i hi
    rw [hlog] at hi
    rw [hets]
    rcases List.mem_append.mp hi with h1 | h1
    · exact List.mem_append_left _ (inv.cETs i h1)
    · simp at h1
      rw [if_pos h1.1.symm, h1.2]
      exact List.mem_append_right _ (by simp)

theorem AsvsInv.presTagT {name : String} {s s' : Sess} {i : Nat}
    (h : createTagT name s = .ok i s') (inv : AsvsInv s) : AsvsInv s' := by
  obtain ⟨rfl, rfl⟩ := createTagT_ok h
  exact inv.step rfl (by simp) (by simp) (by simp) (by simp) (by simp) rfl

theorem AsvsInv.presTopicT {t : TopicRec} {s s' : Sess} {i : Nat}
    (h : createTopicT t s = .ok i s') (inv : AsvsInv s) : AsvsInv s' := by
  obtain ⟨rfl, rfl⟩ := createTopicT_ok h
  exact inv.step rfl (by simp) (by simp) (by simp) (by simp) (by simp) rfl

theorem AsvsInv.presReqT {t : ReqRec} {s s' : Sess} {i : Nat}
    (h : createRequirementT t s = .ok i s') (inv : AsvsInv s) : AsvsInv s' := by
  obtain ⟨rfl, rfl⟩ := createRequirementT_ok h
  exact inv.step rfl (by simp) (by simp) (by simp) (by simp) (by simp) rfl

theorem AsvsInv.presETT {t : ExtraTypeRec} {s s' : Sess} {i : Nat}
    (h : createExtraTypeT t s = .ok i s') (inv : AsvsInv s) : AsvsInv s' := by
  obtain ⟨rfl, rfl⟩ := createExtraTypeT_ok h
  exact inv.step rfl (by simp) (by simp) (by simp) (by simp) (by simp) rfl

theorem AsvsInv.presEE {t : ExtraEntryRec} {s s' : Sess} {i : Nat}
    (h : s.createExtraEntry t = .ok i s') (inv : AsvsInv s) : AsvsInv s' := by
  obtain ⟨rfl, rfl⟩ := createExtraEntry_raw_ok h
  exact inv.step rfl (by simp) (by simp) (by simp) (by simp) (by simp) rfl

theorem AsvsInv.presCatRaw {t : CatRec} {s s' : Sess} {i : Nat}
    (h : s.createCatalogue t = .ok i s') (inv : AsvsInv s) : AsvsInv s' := by
  obtain ⟨rfl, rfl⟩ := createCatalogue_raw_ok h
  exact inv.step rfl (by simp) (by simp) (by simp) (by simp) (by simp) rfl

theorem AsvsInv.presCondEE {c : Prop} [Decidable c] {e : ExtraEntryRec} {s s' : Sess}
    (h : condCreateEE c e s = .ok () s') (inv : AsvsInv s) : AsvsInv s' := by
  unfold condCreateEE at h
  split at h
  · cases hc : s.createExtraEntry e with
    | thrown s1 => rw [hc] at h; simp [CRes.bind] at h
    | ok j s1 =>
      rw [hc] at h
      simp only [CRes.bind] at h
      injection h with _ h2
      subst h2
      exact inv.presEE hc
  · injection h with _ h2
    subst h2
    exact inv

theorem asvsL3Loop_inv {l1t l2t l3t nistId cveId p2 : Nat} {l2Name : String} :
    ∀ (items : List AsvsL3) {s s' : Sess},
      asvsL3Loop l1t l2t l3t nistId cveId p2 l2Name items s = .ok () s' →
      AsvsInv s → AsvsInv s' := by
  intro items
  induction items with
  | nil =>
    intro s s' h inv
    injection h with _ h2
    subst h2
    exact inv
  | cons it rest ih =>
    intro s s' h inv
    simp only [asvsL3Loop] at h
    cases h1 : createRequirementT
        ⟨"V" ++ normalizeDotKey (strDrop1 it.shortcode), l2Name, it.description, p2,
          !(strContains it.description "[DELETED,"),
          (if it.l1 then [some l1t] else []) ++ (if it.l2 then [some l2t] else []) ++
            (if it.l3 then [some l3t] else [])⟩ s with
    | thrown s1 => rw [h1] at h; simp [CRes.bind] at h
    | ok rid s1 =>
      rw [h1] at h
      simp only [CRes.bind] at h
      cases h2 : condCreateEE (it.cwe ≠ [])
          ⟨String.intercalate ";" (it.cwe.map toString), cveId, rid⟩ s1 with
      | thrown s2 => rw [h2] at h; simp [CRes.bind] at h
      | ok u s2 =>
        cases u
        rw [h2] at h
        simp only [CRes.bind] at h
        cases h3 : condCreateEE (it.nist ≠ [])
            ⟨String.intercalate ";" it.nist, nistId, rid⟩ s2 with
        | thrown s3 => rw [h3] at h; simp [CRes.bind] at h
        | ok u s3 =>
          cases u
          rw [h3] at h
          simp only [CRes.bind] at h
          exact ih h (((inv.presReqT h1).presCondEE h2).presCondEE h3)

theorem asvsL2Loop_inv {l1t l2t l3t nistId cveId p1 : Nat} :
    ∀ (items : List AsvsL2) {s s' : Sess},
      asvsL2Loop l1t l2t l3t nistId cveId p1 items s = .ok () s' →
      AsvsInv s → AsvsInv s' := by
  intro items
  induction items with
  | nil =>
    intro s s' h inv
    injection h with _ h2
    subst h2
    exact inv
  | cons it rest ih =>
    intro s s' h inv
    simp only [asvsL2Loop] at h
    cases h1 : createTopicT
        ⟨"V" ++ normalizeDotKey (strDrop1 it.shortcode), it.name, it.name, some p1⟩ s with
    | thrown s1 => rw [h1] at h; simp [CRes.bind] at h
    | ok p2 s1 =>
      rw [h1] at h
      simp only [CRes.bind] at h
      cases h2 : asvsL3Loop l1t l2t l3t nistId cveId p2 it.name it.items s1 with
      | thrown s2 => rw [h2] at h; simp [CRes.bind] at h
      | ok u s2 =>
        cases u
        rw [h2] at h
        simp only [CRes.bind] at h
        exact ih h (asvsL3Loop_inv it.items h2 (inv.presTopicT h1))
theorem asvsL1Loop_inv {l1t l2t l3t nistId cveId : Nat} :
    ∀ (items : List AsvsL1) (acc : List Nat) {s s' : Sess} {roots : List Nat},
      asvsL1Loop l1t l2t l3t nistId cveId items acc s = .ok roots s' →
      AsvsInv s → AsvsInv s' := by
  intro items
  induction items with
  | nil =>
    intro acc s s' roots h inv
    injection h with _ h2
    subst h2
    exact inv
  | cons it rest ih =>
    intro acc s s' roots h inv
    simp only [asvsL1Loop] at h
    cases h1 : createTopicT
        ⟨"V" ++ pyZfill2 (strDrop1 it.shortcode), it.shortName, it.name, none⟩ s with
    | thrown s1 => rw [h1] at h; simp [CRes.bind] at h
    | ok p1 s1 =>
      rw [h1] at h
      simp only [CRes.bind] at h
      cases h2 : asvsL2Loop l1t l2t l3t nistId cveId p1 it.items s1 with
      | thrown s2 => rw [h2] at h; simp [CRes.bind] at h
      | ok u s2 =>
        cases u
        rw [h2] at h
        simp only [CRes.bind] at h
        exact ih (acc ++ [p1]) h (asvsL2Loop_inv it.items h2 (inv.presTopicT h1))
theorem asvsSetup_inv {s s' : Sess} {r : Nat × Nat × Nat × Nat × Nat}
    (h : asvsSetup s = .ok r s') (inv : AsvsInv s) : AsvsInv s' := by
  unfold asvsSetup at h
  cases h1 : createTagT "Level 1" s with
  | thrown s1 => rw [h1] at h; simp [CRes.bind] at h
  | ok l1t s1 =>
    rw [h1] at h
    simp only [CRes.bind] at h
    cases h2 : createTagT "Level 2" s1 with
    | thrown s2 => rw [h2] at h; simp [CRes.bind] at h
    | ok l2t s2 =>
      rw [h2] at h
      simp only [CRes.bind] at h
      cases h3 : createTagT "Level 3" s2 with
      | thrown s3 => rw [h3] at h; simp [CRes.bind] at h
      | ok l3t s3 =>
        rw [h3] at h
        simp only [CRes.bind] at h
        cases h4 : createExtraTypeT ⟨"NIST Ref", 3, "NIST Reference"⟩ s3 with
        | thrown s4 => rw [h4] at h; simp [CRes.bind] at h
        | ok nistId s4 =>
          rw [h4] at h
          simp only [CRes.bind] at h
          cases h5 : createExtraTypeT ⟨"CVE Ref", 3, "CVE Reference"⟩ s4 with
          | thrown s5 => rw [h5] at h; simp [CRes.bind] at h
          | ok cveId s5 =>
            rw [h5] at h
            simp only [CRes.bind] at h
            injection h with _ h6
            subst h6
            exact ((((inv.presTagT h1).presTagT h2).presTagT h3).presETT h4).presETT h5

/-- A completed `asvs` run from a clean session satisfies the invariant. -/
theorem asvsFinal_inv {d : AsvsData} {s' : Sess} (h : asvsFinal d = some s') :
    AsvsInv s' := by
  unfold asvsFinal asvs at h
  split at h
  · simp [completedSess, panic] at h
  · rename_i l1t l2t l3t nistId cveId s1 h1
    split at h
    · simp [completedSess, panic] at h
    · rename_i roots s2 h2
      split at h
      · simp [completedSess, panic] at h
      · rename_i cid s3 h3
        simp only [completedSess] at h
        obtain rfl := Option.some.inj h
        exact AsvsInv.presCatRaw h3
          (asvsL1Loop_inv d.requirements [] h2 (asvsSetup_inv h1 AsvsInv.init))

/-! ## The recording behavior of the `nistcsf` upload (C2) -/

/-- What the `nistcsf` upload actually records: every created Topic id and
every created Requirement id lands in `Rollback.topics`, and
`Rollback.requirements` is never appended to. -/
structure NInv (s : Sess) : Prop where
  cTop : ∀ i, (EKind.topic, i) ∈ s.log → i ∈ s.rb.topics
  cReq : ∀ i, (EKind.requirement, i) ∈ s.log → i ∈ s.rb.topics
  rEmpty : s.rb.requirements = []

theorem NInv.start : NInv (initSess none) := by
  constructor <;> simp [initSess, emptyRollback]

theorem NInv.topicStep {t : TopicRec} {s s' : Sess} {i : Nat}
    (h : createTopicT t s = .ok i s') (inv : NInv s) : NInv s' := by
  obtain ⟨rfl, rfl⟩ := createTopicT_ok h
  refine ⟨?_, ?_, inv.rEmpty⟩
  · intro j hj
    rcases List.mem_append.mp hj with h1 | h1
    · exact List.mem_append_left _ (inv.cTop j h1)
    · simp at h1
      subst h1
      exact List.mem_append_right _ (by simp)
  · intro j hj
    rcases List.mem_append.mp hj with h1 | h1
    · exact List.mem_append_left _ (inv.cReq j h1)
    · simp at h1

theorem NInv.presReqTopicAppend {t : ReqRec} {s s' : Sess} {rid : Nat}
    (h : s.createRequirement t = .ok rid s') (inv : NInv s) : NInv (s'.rbTopic rid) := by
  obtain ⟨rfl, rfl⟩ := createRequirement_raw_ok h
  refine ⟨?_, ?_, inv.rEmpty⟩
  · intro j hj
    rcases List.mem_append.mp hj with h1 | h1
    · exact List.mem_append_left _ (inv.cTop j h1)
    · simp at h1
  · intro j hj
    rcases List.mem_append.mp hj with h1 | h1
    · exact List.mem_append_left _ (inv.cReq j h1)
    · simp at h1
      subst h1
      exact List.mem_append_right _ (by simp)

theorem NInv.catStep {t : CatRec} {s s' : Sess} {i : Nat}
    (h : s.createCatalogue t = .ok i s') (inv : NInv s) : NInv s' := by
  obtain ⟨rfl, rfl⟩ := createCatalogue_raw_ok h
  refine ⟨?_, ?_, inv.rEmpty⟩
  · intro j hj
    rcases List.mem_append.mp hj with h1 | h1
    · exact inv.cTop j h1
    · simp at h1
  · intro j hj
    rcases List.mem_append.mp hj with h1 | h1
    · exact inv.cReq j h1
    · simp at h1

theorem nistReqLoop_inv {p2 : Nat} :
    ∀ (items : List (String × NistReqEntry)) {s s' : Sess},
      nistReqLoop p2 items s = .ok () s' → NInv s → NInv s' := by
  intro items
  induction items with
  | nil =>
    intro s s' h inv
    injection h with _ h2
    subst h2
    exact inv
  | cons it rest ih =>
    intro s s' h inv
    simp only [nistReqLoop] at h
    split at h
    · simp at h
    · rename_i rid s1 h1
      exact ih h (inv.presReqTopicAppend h1)

theorem nistCatLoop_inv {p1 : Nat} :
    ∀ (items : List (String × NistCat)) {s s' : Sess},
      nistCatLoop p1 items s = .ok () s' → NInv s → NInv s' := by
  intro items
  induction items with
  | nil =>
    intro s s' h inv
    injection h with _ h2
    subst h2
    exact inv
  | cons it rest ih =>
    intro s s' h inv
    simp only [nistCatLoop] at h
    cases h1 : createTopicT ⟨it.1, it.2.title, it.2.description, some p1⟩ s with
    | thrown s1 => rw [h1] at h; simp [CRes.bind] at h
    | ok p2 s1 =>
      rw [h1] at h
      simp only [CRes.bind] at h
      cases h2 : nistReqLoop p2 it.2.requirements s1 with
      | thrown s2 => rw [h2] at h; simp [CRes.bind] at h
      | ok u s2 =>
        cases u
        rw [h2] at h
        simp only [CRes.bind] at h
        exact ih h (nistReqLoop_inv it.2.requirements h2 (inv.topicStep h1))
theorem nistFnLoop_inv :
    ∀ (m : NistMapping) (acc : List Nat) {s s' : Sess} {roots : List Nat},
      nistFnLoop m acc s = .ok roots s' → NInv s → NInv s' := by
  intro m
  induction m with
  | nil =>
    intro acc s s' roots h inv
    injection h with _ h2
    subst h2
    exact inv
  | cons it rest ih =>
    intro acc s s' roots h inv
    simp only [nistFnLoop] at h
    cases h1 : createTopicT ⟨it.1, it.2.title, it.2.description, none⟩ s with
    | thrown s1 => rw [h1] at h; simp [CRes.bind] at h
    | ok p1 s1 =>
      rw [h1] at h
      simp only [CRes.bind] at h
      cases h2 : nistCatLoop p1 it.2.children s1 with
      | thrown s2 => rw [h2] at h; simp [CRes.bind] at h
      | ok u s2 =>
        cases u
        rw [h2] at h
        simp only [CRes.bind] at h
        exact ih (acc ++ [p1]) h (nistCatLoop_inv it.2.children h2 (inv.topicStep h1))
theorem nistFinal_inv {m : NistMapping} {s' : Sess} (h : nistFinal m = some s') :
    NInv s' := by
  unfold nistFinal nistcsfUpload at h
  split at h
  · simp [completedSess, panic] at h
  · rename_i roots s1 h1
    split at h
    · simp [completedSess, panic] at h
    · rename_i cid s2 h2
      simp only [completedSess] at h
      obtain rfl := Option.some.inj h
      exact NInv.catStep h2 (nistFnLoop_inv m [] h1 NInv.start)

/-- C2 (amended): in the `asvs` importer every successful Tag, Topic,
Requirement and ExtraType create appends its returned id to the session
list of its own kind, but ExtraEntry and Catalogue ids are recorded in no
session list at all; and in the `nistcsf` importer Topic ids — and, against
the claim, Requirement ids as well — are appended to the session's topics
list, while the session's requirements list stays empty. -/
theorem claim_C2_amended :
    (∀ (d : AsvsData) (k : EKind) (i : Nat), (k, i) ∈ optLog (asvsFinal d) →
        (k = EKind.tag → i ∈ optRbTags (asvsFinal d)) ∧
        (k = EKind.topic → i ∈ optRbTopics (asvsFinal d)) ∧
        (k = EKind.requirement → i ∈ optRbReqs (asvsFinal d)) ∧
        (k = EKind.extraType → i ∈ optRbETs (asvsFinal d)) ∧
        ((k = EKind.extraEntry ∨ k = EKind.catalogue) → i ∉ optRbAll (asvsFinal d))) ∧
    (∀ (m : NistMapping) (k : EKind) (i : Nat), (k, i) ∈ optLog (nistFinal m) →
        ((k = EKind.topic ∨ k = EKind.requirement) → i ∈ optRbTopics (nistFinal m)) ∧
        optRbReqs (nistFinal m) = []) := by
  constructor
  · intro d k i hmem
    cases hf : asvsFinal d with
    | none => rw [hf] at hmem; simp [optLog] at hmem
    | some s1 =>
      rw [hf] at hmem
      simp only [optLog] at hmem
      have inv := asvsFinal_inv hf
      simp only [optRbTags, optRbTopics, optRbReqs, optRbETs, optRbAll]
      refine ⟨?_, ?_, ?_, ?_, ?_⟩
      · intro hk
        subst hk
        exact inv.cTags i hmem
      · intro hk
        subst hk
        exact inv.cTopics i hmem
      · intro hk
        subst hk
        exact inv.cReqs i hmem
      · intro hk
        subst hk
        exact inv.cETs i hmem
      · intro hk hin
        unfold rbAllIds at hin
        rcases List.mem_append.mp hin with hin | hcat
        rcases List.mem_append.mp hin with hin | het
        rcases List.mem_append.mp hin with hin | hreq
        rcases List.mem_append.mp hin with htag | htop
        · have := snd_nodup_inj inv.nodup hmem (inv.sTags i htag)
          rcases hk with rfl | rfl <;> simp at this
        · have := snd_nodup_inj inv.nodup hmem (inv.sTopics i htop)
          rcases hk with rfl | rfl <;> simp at this
        · have := snd_nodup_inj inv.nodup hmem (inv.sReqs i hreq)
          rcases hk with rfl | rfl <;> simp at this
        · have := snd_nodup_inj inv.nodup hmem (inv.sETs i het)
          rcases hk with rfl | rfl <;> simp at this
        · rw [inv.sCats] at hcat
          simp at hcat
  · intro m k i hmem
    cases hf : nistFinal m with
    | none => rw [hf] at hmem; simp [optLog] at hmem
    | some s1 =>
      rw [hf] at hmem
      simp only [optLog] at hmem
      have inv := nistFinal_inv hf
      simp only [optRbTopics, optRbReqs]
      refine ⟨?_, inv.rEmpty⟩
      intro hk
      rcases hk with rfl | rfl
      · exact inv.cTop i hmem
      · exact inv.cReq i hmem

theorem claim_C2_amended_witness :
    0 ∈ optRbTags (asvsFinal asvsFixture) ∧
    2 ∈ optRbTopics (nistFinal nistFixtureA) :=
  ⟨(claim_C2_amended.1 asvsFixture EKind.tag 0 (by decide)).1 rfl,
   (claim_C2_amended.2 nistFixtureA EKind.requirement 2 (by decide)).1 (Or.inr rfl)⟩

/-! ## Requirement records created by `writeBSIRequirements` (C6, C10) -/

/-- The visibility rule of sources.py 927-931, as a predicate on a stored
requirement record. -/
def visRule (p : Nat × ReqRec) : Prop :=
  p.2.visible = !(strStartsWith p.2.title "ENTFALLEN (")

theorem bsiWriteReqLoop_vis {tagMap : List (Char × Nat)} {parent : Nat} :
    ∀ (entries : List (String × BsiReqEntry)) {s s' : Sess},
      bsiWriteReqLoop tagMap parent entries s = .ok () s' →
      (∀ p ∈ s.repo.requirements, visRule p) →
      ∀ p ∈ s'.repo.requirements, visRule p := by
  intro entries
  induction entries with
  | nil =>
    intro s s' h hyp
    injection h with _ h2
    subst h2
    exact hyp
  | cons q rest ih =>
    obtain ⟨k0, e0⟩ := q
    intro s s' h hyp
    simp only [bsiWriteReqLoop] at h
    split at h
    · simp at h
    · rename_i tl heq
      cases h1 : createRequirementT
          ⟨k0, e0.title, e0.description, parent,
            !(strStartsWith e0.title "ENTFALLEN ("), tl⟩ s with
      | thrown s1 => rw [h1] at h; simp [CRes.bind] at h
      | ok rid s1 =>
        rw [h1] at h
        simp only [CRes.bind] at h
        obtain ⟨rfl, rfl⟩ := createRequirementT_ok h1
        refine ih h ?_
        intro p hp
        rcases List.mem_append.mp hp with hin | hin
        · exact hyp p hin
        · simp at hin
          subst hin
          rfl

theorem bsiWriteTopicLoop_vis {tagMap : List (Char × Nat)} {blockRoot : Nat} :
    ∀ (topics : List (String × BsiTopicVal)) {s s' : Sess},
      bsiWriteTopicLoop tagMap blockRoot topics s = .ok () s' →
      (∀ p ∈ s.repo.requirements, visRule p) →
      ∀ p ∈ s'.repo.requirements, visRule p := by
  intro topics
  induction topics with
  | nil =>
    intro s s' h hyp
    injection h with _ h2
    subst h2
    exact hyp
  | cons q rest ih =>
    obtain ⟨tk, tv⟩ := q
    intro s s' h hyp
    simp only [bsiWriteTopicLoop] at h
    cases h1 : createTopicT ⟨tk, tv.title, "", some blockRoot⟩ s with
    | thrown s1 => rw [h1] at h; simp [CRes.bind] at h
    | ok pt s1 =>
      rw [h1] at h
      simp only [CRes.bind] at h
      cases h2 : bsiWriteReqLoop tagMap pt tv.requirements s1 with
      | thrown s2 => rw [h2] at h; simp [CRes.bind] at h
      | ok u s2 =>
        cases u
        rw [h2] at h
        simp only [CRes.bind] at h
        obtain ⟨rfl, rfl⟩ := createTopicT_ok h1
        exact ih h (bsiWriteReqLoop_vis tv.requirements h2 hyp)

theorem bsiWriteBlockLoop_vis {tagMap : List (Char × Nat)} :
    ∀ (bbs : BsiBuildingBlocks) (acc : List Nat) {s s' : Sess} {roots : List Nat},
      bsiWriteBlockLoop tagMap bbs acc s = .ok roots s' →
      (∀ p ∈ s.repo.requirements, visRule p) →
      ∀ p ∈ s'.repo.requirements, visRule p := by
  intro bbs
  induction bbs with
  | nil =>
    intro acc s s' roots h hyp
    injection h with _ h2
    subst h2
    exact hyp
  | cons q rest ih =>
    obtain ⟨bk, bv⟩ := q
    intro acc s s' roots h hyp
    simp only [bsiWriteBlockLoop] at h
    cases h1 : createTopicT ⟨bk, bv.title, "", none⟩ s with
    | thrown s1 => rw [h1] at h; simp [CRes.bind] at h
    | ok root s1 =>
      rw [h1] at h
      simp only [CRes.bind] at h
      cases h2 : bsiWriteTopicLoop tagMap root bv.children s1 with
      | thrown s2 => rw [h2] at h; simp [CRes.bind] at h
      | ok u s2 =>
        cases u
        rw [h2] at h
        simp only [CRes.bind] at h
        obtain ⟨rfl, rfl⟩ := createTopicT_ok h1
        exact ih (acc ++ [s.repo.nextId]) h (bsiWriteTopicLoop_vis bv.children h2 hyp)

/-- C6: every requirement record created by `writeBSIRequirements` is
visible exactly when its title does not start with the superseded marker
`"ENTFALLEN ("` — superseded requirements are still created, with
`visible = false`, and all others with `visible = true`. -/
theorem claim_C6_superseded_visibility (bbs : BsiBuildingBlocks) (i : Nat) (r : ReqRec)
    (hmem : (i, r) ∈ optReqs (bsiWriteFinal bbs)) :
    r.visible = !(strStartsWith r.title "ENTFALLEN (") := by
  rcases hf : bsiWriteFinal bbs with - | s9
  · rw [hf] at hmem
    simp [optReqs] at hmem
  · rw [hf] at hmem
    simp only [optReqs] at hmem
    unfold bsiWriteFinal writeBSIRequirements at hf
    cases h1 : createTagT "Basis" (initSess none) with
    | thrown s1 => rw [h1] at hf; simp [CRes.bind] at hf
    | ok tb s1 =>
      rw [h1] at hf
      simp only [CRes.bind] at hf
      cases h2 : createTagT "Standard" s1 with
      | thrown s2 => rw [h2] at hf; simp [CRes.bind] at hf
      | ok ts s2 =>
        rw [h2] at hf
        simp only [CRes.bind] at hf
        cases h3 : createTagT "Erhöht" s2 with
        | thrown s3 => rw [h3] at hf; simp [CRes.bind] at hf
        | ok th s3 =>
          rw [h3] at hf
          simp only [CRes.bind] at hf
          cases h4 : bsiWriteBlockLoop [('B', tb), ('S', ts), ('H', th)] bbs [] s3 with
          | thrown s4 => rw [h4] at hf; simp [CRes.bind] at hf
          | ok roots s4 =>
            rw [h4] at hf
            simp only [CRes.bind] at hf
            cases h5 : createCatalogueT
                ⟨"BSI Grundschutz Bausteine (2023)",
                  "Anforderungsbausteine des BSI Grundschutzes (2023)", roots⟩ s4 with
            | thrown s5 => rw [h5] at hf; simp [CRes.bind] at hf
            | ok cid s5 =>
              rw [h5] at hf
              simp only [CRes.bind] at hf
              obtain rfl := Option.some.inj hf
              have hbase : ∀ p ∈ s3.repo.requirements, visRule p := by
                obtain ⟨rfl, rfl⟩ := createTagT_ok h1
                obtain ⟨rfl, rfl⟩ := createTagT_ok h2
                obtain ⟨rfl, rfl⟩ := createTagT_ok h3
                intro p hp
                simp [initSess, emptyRepo] at hp
              have h4v := bsiWriteBlockLoop_vis bbs [] h4 hbase
              obtain ⟨rfl, rfl⟩ := createCatalogueT_ok h5
              exact h4v (i, r) hmem

theorem claim_C6_witness :
    (6, ReqRec.mk "SYS.01.01.A02" "ENTFALLEN (x)" "d" 4 false [Option.none]) ∈
        optReqs (bsiWriteFinal bsiFixtureW) ∧
    (ReqRec.mk "SYS.01.01.A02" "ENTFALLEN (x)" "d" 4 false [Option.none]).visible =
      !(strStartsWith
          (ReqRec.mk "SYS.01.01.A02" "ENTFALLEN (x)" "d" 4 false [Option.none]).title
          "ENTFALLEN (") :=
  ⟨by decide,
   claim_C6_superseded_visibility bsiFixtureW 6
     (ReqRec.mk "SYS.01.01.A02" "ENTFALLEN (x)" "d" 4 false [Option.none]) (by decide)⟩

/-! ## C10: a requirement without a parsed tag gets the tags list `[None]` -/

/-- The `(key, tags)` view of the stored requirement records. -/
def keyTagsView (s : Sess) : List (String × List (Option Nat)) :=
  s.repo.requirements.map (fun p => (p.2.key, p.2.tags))

theorem bsiWriteReqLoop_mono {tagMap : List (Char × Nat)} {parent : Nat} :
    ∀ (entries : List (String × BsiReqEntry)) {s s' : Sess},
      bsiWriteReqLoop tagMap parent entries s = .ok () s' →
      ∃ l, s'.repo.requirements = s.repo.requirements ++ l := by
  intro entries
  induction entries with
  | nil =>
    intro s s' h
    injection h with _ h2
    subst h2
    exact ⟨[], by simp⟩
  | cons q rest ih =>
    obtain ⟨k0, e0⟩ := q
    intro s s' h
    simp only [bsiWriteReqLoop] at h
    split at h
    · simp at h
    · rename_i tl heq
      cases h1 : createRequirementT
          ⟨k0, e0.title, e0.description, parent,
            !(strStartsWith e0.title "ENTFALLEN ("), tl⟩ s with
      | thrown s1 => rw [h1] at h; simp [CRes.bind] at h
      | ok rid s1 =>
        rw [h1] at h
        simp only [CRes.bind] at h
        obtain ⟨rfl, rfl⟩ := createRequirementT_ok h1
        rcases ih h with ⟨l, hl⟩
        refine ⟨(s.repo.nextId,
          ⟨k0, e0.title, e0.description, parent,
            !(strStartsWith e0.title "ENTFALLEN ("), tl⟩) :: l, ?_⟩
        rw [hl]
        simp

theorem bsiWriteTopicLoop_mono {tagMap : List (Char × Nat)} {blockRoot : Nat} :
    ∀ (topics : List (String × BsiTopicVal)) {s s' : Sess},
      bsiWriteTopicLoop tagMap blockRoot topics s = .ok () s' →
      ∃ l, s'.repo.requirements = s.repo.requirements ++ l := by
  intro topics
  induction topics with
  | nil =>
    intro s s' h
    injection h with _ h2
    subst h2
    exact ⟨[], by simp⟩
  | cons q rest ih =>
    obtain ⟨tk, tv⟩ := q
    intro s s' h
    simp only [bsiWriteTopicLoop] at h
    cases h1 : createTopicT ⟨tk, tv.title, "", some blockRoot⟩ s with
    | thrown s1 => rw [h1] at h; simp [CRes.bind] at h
    | ok pt s1 =>
      rw [h1] at h
      simp only [CRes.bind] at h
      cases h2 : bsiWriteReqLoop tagMap pt tv.requirements s1 with
      | thrown s2 => rw [h2] at h; simp [CRes.bind] at h
      | ok u s2 =>
        cases u
        rw [h2] at h
        simp only [CRes.bind] at h
        obtain ⟨rfl, rfl⟩ := createTopicT_ok h1
        rcases bsiWriteReqLoop_mono tv.requirements h2 with ⟨l1, hl1⟩
        rcases ih h with ⟨l2, hl2⟩
        refine ⟨l1 ++ l2, ?_⟩
        rw [hl2, hl1]
        simp

theorem bsiWriteBlockLoop_mono {tagMap : List (Char × Nat)} :
    ∀ (bbs : BsiBuildingBlocks) (acc : List Nat) {s s' : Sess} {roots : List Nat},
      bsiWriteBlockLoop tagMap bbs acc s = .ok roots s' →
      ∃ l, s'.repo.requirements = s.repo.requirements ++ l := by
  intro bbs
  induction bbs with
  | nil =>
    intro acc s s' roots h
    injection h with _ h2
    subst h2
    exact ⟨[], by simp⟩
  | cons q rest ih =>
    obtain ⟨bk, bv⟩ := q
    intro acc s s' roots h
    simp only [bsiWriteBlockLoop] at h
    cases h1 : createTopicT ⟨bk, bv.title, "", none⟩ s with
    | thrown s1 => rw [h1] at h; simp [CRes.bind] at h
    | ok root s1 =>
      rw [h1] at h
      simp only [CRes.bind] at h
      cases h2 : bsiWriteTopicLoop tagMap root bv.children s1 with
      | thrown s2 => rw [h2] at h; simp [CRes.bind] at h
      | ok u s2 =>
        cases u
        rw [h2] at h
        simp only [CRes.bind] at h
        obtain ⟨rfl, rfl⟩ := createTopicT_ok h1
        rcases bsiWriteTopicLoop_mono bv.children h2 with ⟨l1, hl1⟩
        rcases ih (acc ++ [s.repo.nextId]) h with ⟨l2, hl2⟩
        refine ⟨l1 ++ l2, ?_⟩
        rw [hl2, hl1]
        simp

theorem bsiWriteReqLoop_none_tag {tagMap : List (Char × Nat)} {parent : Nat} :
    ∀ (entries : List (String × BsiReqEntry)) {s s' : Sess},
      bsiWriteReqLoop tagMap parent entries s = .ok () s' →
      ∀ k e, (k, e) ∈ entries → e.tag = none →
      (k, [Option.none]) ∈ keyTagsView s' := by
  intro entries
  induction entries with
  | nil =>
    intro s s' h k e hmem
    simp at hmem
  | cons q rest ih =>
    obtain ⟨k0, e0⟩ := q
    intro s s' h k e hmem htag
    simp only [bsiWriteReqLoop] at h
    split at h
    · simp at h
    · rename_i tl heq
      cases h1 : createRequirementT
          ⟨k0, e0.title, e0.description, parent,
            !(strStartsWith e0.title "ENTFALLEN ("), tl⟩ s with
      | thrown s1 => rw [h1] at h; simp [CRes.bind] at h
      | ok rid s1 =>
        rw [h1] at h
        simp only [CRes.bind] at h
        rcases List.mem_cons.mp hmem with hhd | htl
        · obtain ⟨rfl, rfl⟩ := Prod.mk.injEq .. ▸ hhd
          rw [htag] at heq
          obtain rfl := Option.some.inj heq
          obtain ⟨rfl, rfl⟩ := createRequirementT_ok h1
          rcases bsiWriteReqLoop_mono rest h with ⟨l, hl⟩
          unfold keyTagsView
          rw [hl]
          simp
        · exact ih h k e htl htag

theorem bsiWriteTopicLoop_none_tag {tagMap : List (Char × Nat)} {blockRoot : Nat} :
    ∀ (topics : List (String × BsiTopicVal)) {s s' : Sess},
      bsiWriteTopicLoop tagMap blockRoot topics s = .ok () s' →
      ∀ tk tv, (tk, tv) ∈ topics → ∀ k e, (k, e) ∈ tv.requirements → e.tag = none →
      (k, [Option.none]) ∈ keyTagsView s' := by
  intro topics
  induction topics with
  | nil =>
    intro s s' h tk tv hmem
    simp at hmem
  | cons q rest ih =>
    obtain ⟨tk0, tv0⟩ := q
    intro s s' h tk tv hmem k e hke htag
    simp only [bsiWriteTopicLoop] at h
    cases h1 : createTopicT ⟨tk0, tv0.title, "", some blockRoot⟩ s with
    | thrown s1 => rw [h1] at h; simp [CRes.bind] at h
    | ok pt s1 =>
      rw [h1] at h
      simp only [CRes.bind] at h
      cases h2 : bsiWriteReqLoop tagMap pt tv0.requirements s1 with
      | thrown s2 => rw [h2] at h; simp [CRes.bind] at h
      | ok u s2 =>
        cases u
        rw [h2] at h
        simp only [CRes.bind] at h
        rcases List.mem_cons.mp hmem with hhd | htl
        · obtain ⟨rfl, rfl⟩ := Prod.mk.injEq .. ▸ hhd
          have hin := bsiWriteReqLoop_none_tag tv.requirements h2 k e hke htag
          rcases bsiWriteTopicLoop_mono rest h with ⟨l, hl⟩
          unfold keyTagsView at hin ⊢
          rw [hl, List.map_append]
          exact List.mem_append_left _ hin
        · exact ih h tk tv htl k e hke htag

theorem bsiWriteBlockLoop_none_tag {tagMap : List (Char × Nat)} :
    ∀ (bbs : BsiBuildingBlocks) (acc : List Nat) {s s' : Sess} {roots : List Nat},
      bsiWriteBlockLoop tagMap bbs acc s = .ok roots s' →
      ∀ bk bv, (bk, bv) ∈ bbs → ∀ tk tv, (tk, tv) ∈ bv.children →
      ∀ k e, (k, e) ∈ tv.requirements → e.tag = none →
      (k, [Option.none]) ∈ keyTagsView s' := by
  intro bbs
  induction bbs with
  | nil =>
    intro acc s s' roots h bk bv hmem
    simp at hmem
  | cons q rest ih =>
    obtain ⟨bk0, bv0⟩ := q
    intro acc s s' roots h bk bv hmem tk tv htv k e hke htag
    simp only [bsiWriteBlockLoop] at h
    cases h1 : createTopicT ⟨bk0, bv0.title, "", none⟩ s with
    | thrown s1 => rw [h1] at h; simp [CRes.bind] at h
    | ok root s1 =>
      rw [h1] at h
      simp only [CRes.bind] at h
      cases h2 : bsiWriteTopicLoop tagMap root bv0.children s1 with
      | thrown s2 => rw [h2] at h; simp [CRes.bind] at h
      | ok u s2 =>
        cases u
        rw [h2] at h
        simp only [CRes.bind] at h
        rcases List.mem_cons.mp hmem with hhd | htl
        · obtain ⟨rfl, rfl⟩ := Prod.mk.injEq .. ▸ hhd
          have hin := bsiWriteTopicLoop_none_tag bv.children h2 tk tv htv k e hke htag
          rcases bsiWriteBlockLoop_mono rest (acc ++ [root]) h with ⟨l, hl⟩
          unfold keyTagsView at hin ⊢
          rw [hl, List.map_append]
          exact List.mem_append_left _ hin
        · exact ih (acc ++ [root]) h bk bv htl tk tv htv k e hke htag

/-- C10: every requirement entry whose parsed classification tag is absent
is created with the one-element tags list `[None]` — not the empty list. -/
theorem claim_C10_none_tag_singleton (bbs : BsiBuildingBlocks)
    (bk : String) (bv : BsiBlockVal) (tk : String) (tv : BsiTopicVal)
    (k : String) (e : BsiReqEntry)
    (hb : (bk, bv) ∈ bbs) (ht : (tk, tv) ∈ bv.children)
    (hk : (k, e) ∈ tv.requirements) (htag : e.tag = none) :
    (∀ s, bsiWriteFinal bbs = some s → (k, [Option.none]) ∈ keyTagsView s) ∧
    ([Option.none] : List (Option Nat)) ≠ [] := by
  refine ⟨?_, by simp⟩
  intro s9 hf
  unfold bsiWriteFinal writeBSIRequirements at hf
  cases h1 : createTagT "Basis" (initSess none) with
  | thrown s1 => rw [h1] at hf; simp [CRes.bind] at hf
  | ok tb s1 =>
    rw [h1] at hf
    simp only [CRes.bind] at hf
    cases h2 : createTagT "Standard" s1 with
    | thrown s2 => rw [h2] at hf; simp [CRes.bind] at hf
    | ok ts s2 =>
      rw [h2] at hf
      simp only [CRes.bind] at hf
      cases h3 : createTagT "Erhöht" s2 with
      | thrown s3 => rw [h3] at hf; simp [CRes.bind] at hf
      | ok th s3 =>
        rw [h3] at hf
        simp only [CRes.bind] at hf
        cases h4 : bsiWriteBlockLoop [('B', tb), ('S', ts), ('H', th)] bbs [] s3 with
        | thrown s4 => rw [h4] at hf; simp [CRes.bind] at hf
        | ok roots s4 =>
          rw [h4] at hf
          simp only [CRes.bind] at hf
          cases h5 : createCatalogueT
              ⟨"BSI Grundschutz Bausteine (2023)",
                "Anforderungsbausteine des BSI Grundschutzes (2023)", roots⟩ s4 with
          | thrown s5 => rw [h5] at hf; simp [CRes.bind] at hf
          | ok cid s5 =>
            rw [h5] at hf
            simp only [CRes.bind] at hf
            obtain rfl := Option.some.inj hf
            have hin := bsiWriteBlockLoop_none_tag bbs [] h4 bk bv hb tk tv ht k e hk htag
            obtain ⟨rfl, rfl⟩ := createCatalogueT_ok h5
            exact hin

theorem claim_C10_witness :
    (("SYS.01.01.A02", [Option.none]) ∈ keyTagsView
        { repo :=
            { tags := [(0, "Basis"), (1, "Standard"), (2, "Erhöht")],
              topics := [(3, ⟨"SYS", "IT-Systeme", "", none⟩),
                         (4, ⟨"SYS.01", "Server", "", some 3⟩)],
              requirements := [(5, ⟨"SYS.01.01.A01", "Alles (B)", "d", 4, true, [some 0]⟩),
                               (6, ⟨"SYS.01.01.A02", "ENTFALLEN (x)", "d", 4, false,
                                    [Option.none]⟩)],
              extraTypes := [], extraEntries := [],
              catalogues := [(7, ⟨"BSI Grundschutz Bausteine (2023)",
                                  "Anforderungsbausteine des BSI Grundschutzes (2023)", [3]⟩)],
              nextId := 8 },
          rb := ⟨[0, 1, 2], [3, 4], [5, 6], [], [7]⟩,
          calls := 8, failAt := none,
          log := [(EKind.tag, 0), (EKind.tag, 1), (EKind.tag, 2), (EKind.topic, 3),
                  (EKind.topic, 4), (EKind.requirement, 5), (EKind.requirement, 6),
                  (EKind.catalogue, 7)] }) ∧
    ([Option.none] : List (Option Nat)) ≠ [] :=
  ⟨(claim_C10_none_tag_singleton bsiFixtureW "SYS"
      ⟨"IT-Systeme", [("SYS.01", ⟨"Server", [],
        [("SYS.01.01.A01", ⟨"Alles (B)", some 'B', "d"⟩),
         ("SYS.01.01.A02", ⟨"ENTFALLEN (x)", none, "d"⟩)]⟩)]⟩
      "SYS.01" ⟨"Server", [],
        [("SYS.01.01.A01", ⟨"Alles (B)", some 'B', "d"⟩),
         ("SYS.01.01.A02", ⟨"ENTFALLEN (x)", none, "d"⟩)]⟩
      "SYS.01.01.A02" ⟨"ENTFALLEN (x)", none, "d"⟩
      (by decide) (by decide) (by decide) (by decide)).1 _ (by decide),
   (claim_C10_none_tag_singleton bsiFixtureW "SYS"
      ⟨"IT-Systeme", [("SYS.01", ⟨"Server", [],
        [("SYS.01.01.A01", ⟨"Alles (B)", some 'B', "d"⟩),
         ("SYS.01.01.A02", ⟨"ENTFALLEN (x)", none, "d"⟩)]⟩)]⟩
      "SYS.01" ⟨"Server", [],
        [("SYS.01.01.A01", ⟨"Alles (B)", some 'B', "d"⟩),
         ("SYS.01.01.A02", ⟨"ENTFALLEN (x)", none, "d"⟩)]⟩
      "SYS.01.01.A02" ⟨"ENTFALLEN (x)", none, "d"⟩
      (by decide) (by decide) (by decide) (by decide)).2⟩

end Sources
